import Mathlib

/-!
Shallow embedding of the `@xstd/event-emitter` package and proofs about it.

The embedding covers:
* the synchronous `EventEmitter` class (src/unnamed/part_002): its state,
  the private `#dispatch`, `#clear`, `#clearIfMaxUnsubscribeCountIsReached`,
  `#isUniqueAndDone` methods, the `listen` method and the undo closure it
  returns;
* the asynchronous `AsyncEventEmitter` class (src/unnamed/part_000): its
  `#dispatch` (listener loop, `Promise.allSettled` aggregation);
* the `toAsyncGenerator` lazy-sequence bridge of the synchronous emitter
  (src/unnamed/part_002, lines 200-275): the dispatch-side listener and the
  pull side of its pending-value queue.

Listener bodies are user code; they are deep-embedded as a small action
language (`LAct`) sufficient for the behaviours exercised by the claims:
doing nothing, throwing, re-dispatching on the same emitter (catching the
resulting error), and registering a fresh listener on the same emitter.
Since a listener may re-enter `dispatch` and may grow the registry while
the dispatch loop is running, the dispatch loop is defined with explicit
fuel; `none` means the fuel ran out (the real loop can actually diverge if
listeners keep registering listeners, so fuel is an honest device).

JavaScript exceptions leave all mutations made so far in place, so every
operation returns both its outcome (`Except`) and the state it leaves
behind.
-/

set_option autoImplicit false

namespace EventEmitterSpec

/-- Errors that can be observed from the emitter operations.
The source throws plain `Error` objects; we distinguish them by message:
`reentrancy` is the error with message "Dispatch loop detected." and
`alreadyEmitted` the error with message "Event already emitted.".
`listenerThrow tag` models an exception thrown by a user listener body. -/
inductive EmError where
  | reentrancy
  | alreadyEmitted
  | listenerThrow (tag : Nat)
  deriving DecidableEq, Repr

/-- Deep-embedded behaviour of a synchronous listener body.
`pure` does nothing; `throwL tag` throws; `reDispatchCatch w` calls
`dispatch w` on the same emitter and catches (and records) any error it
throws; `listenNew j` calls `listen` on the same emitter registering a
fresh `pure` listener with identity `j` (discarding the undo handle). -/
inductive LAct (V : Type) where
  | pure
  | throwL (tag : Nat)
  | reDispatchCatch (w : V)
  | listenNew (j : Nat)
  deriving DecidableEq, Repr

/-- A registry slot: `none` models a tombstone (the source stores `noop`
in the slot), `some (id, act)` an active listener.  Listener identity
(the JS function object compared by `indexOf` and by `!== noop`) is
modelled by the `Nat` id; each registration is assumed to use a fresh
function object, hence a fresh id. -/
abbrev Slot (V : Type) := Option (Nat × LAct V)

/-- State of one `EventEmitter` instance, plus two observation logs.
Fields mirror the private fields of the class in src/unnamed/part_002:
`unique` and `listenAfterUniqueDispatchedError` are the construction
options (the error mode of `listenAfterUniqueDispatched`), `listeners` is
`#listeners`, and the four counters are `#unsubscribeCount`,
`#clearCount`, `#dispatchCount`, `#dispatching`.  `invoked` records, in
order, each listener body that actually ran together with the dispatched
value it received; `caught` records the errors caught by
`reDispatchCatch` listener bodies.  The logs model the observable side
effects of the (user-supplied) listener bodies, not emitter state. -/
structure MState (V : Type) where
  unique : Bool
  listenAfterUniqueDispatchedError : Bool
  listeners : List (Slot V)
  unsubscribeCount : Nat
  clearCount : Nat
  dispatchCount : Nat
  dispatching : Bool
  invoked : List (Nat × V)
  caught : List EmError
  deriving DecidableEq, Repr

/-- Static field `EventEmitter.#maxUnsubscribeCount = 0xff`. -/
def maxUnsubscribeCount : Nat := 0xff

variable {V : Type}

/-- Initial state of a freshly constructed emitter (constructor,
src/unnamed/part_002 lines 64-84), with the given `unique` option and
`lauError` standing for the error mode of `listenAfterUniqueDispatched`. -/
def mkState (unique lauError : Bool) : MState V :=
  { unique := unique
    listenAfterUniqueDispatchedError := lauError
    listeners := []
    unsubscribeCount := 0
    clearCount := 0
    dispatchCount := 0
    dispatching := false
    invoked := []
    caught := [] }

/-- Embeds `#isUniqueAndDone` (lines 86-88). -/
def isUniqueAndDone (st : MState V) : Bool :=
  st.unique && st.dispatchCount != 0

/-- Embeds `#clear` (lines 96-102): resets the tombstone counter, bumps the
clear generation and drops all tombstoned slots (`listener !== noop`). -/
def clear (st : MState V) : MState V :=
  { st with
    unsubscribeCount := 0
    clearCount := st.clearCount + 1
    listeners := st.listeners.filter (fun s => s.isSome) }

/-- Embeds `#clearIfMaxUnsubscribeCountIsReached` (lines 90-94). -/
def clearIfMaxUnsubscribeCountIsReached (st : MState V) : MState V :=
  if maxUnsubscribeCount ≤ st.unsubscribeCount then clear st else st

/-- The undo closure returned by `listen` (lines 149-159).  It captures the
mutable locals `index` and `clearCount` and the listener identity used by
`indexOf`. -/
structure Undo where
  index : Int
  clearCount : Nat
  lid : Nat
  deriving DecidableEq, Repr

/-- The `noop` undo handle returned by `listen` when the unique event has
already been dispatched (line 141).  Calling it does nothing, which the
`index = -1` sentinel models exactly. -/
def noopUndo : Undo := { index := -1, clearCount := 0, lid := 0 }

/-- Embeds `listen` (lines 136-161).  Registration appends the listener and
returns the undo closure; after a unique dispatch it either throws
(the error mode of `listenAfterUniqueDispatched`) or returns `noop`.
`checkMaxListeners` only prints a warning and is stateless, so it is
omitted. -/
def listen (lid : Nat) (act : LAct V) (st : MState V) :
    Except EmError Undo × MState V :=
  if isUniqueAndDone st then
    if st.listenAfterUniqueDispatchedError then (.error .alreadyEmitted, st)
    else (.ok noopUndo, st)
  else
    let index : Int := st.listeners.length
    let clearCount : Nat := st.clearCount
    ((.ok { index := index, clearCount := clearCount, lid := lid }),
      { st with listeners := st.listeners ++ [some (lid, act)] })

/-- Embeds `this.#listeners.indexOf(listener)` (line 152): index of the
first slot holding the listener with identity `lid`, or `-1`. -/
def indexOfLid (lid : Nat) (l : List (Slot V)) : Int :=
  match l.findIdx? (fun s =>
      match s with
      | some (id, _) => id == lid
      | none => false) with
  | some i => (i : Int)
  | none => -1

/-- Embeds the assignment `this.#listeners[index] = noop` (line 155) when
`index` may be `-1` (listener not found): assigning at index `-1` does not
change any element of a JS array. -/
def setSlot (i : Int) (x : Slot V) (l : List (Slot V)) : List (Slot V) :=
  if i < 0 then l else l.set i.toNat x

/-- Embeds one invocation of the undo closure (lines 149-159).  Returns the
updated closure state together with the updated emitter state. -/
def runUndo (u : Undo) (st : MState V) : Undo × MState V :=
  if u.index != -1 then
    let res : Int × Nat :=
      if u.clearCount != st.clearCount then
        (indexOfLid u.lid st.listeners, st.clearCount)
      else (u.index, u.clearCount)
    let st' := { st with listeners := setSlot res.1 none st.listeners }
    ({ u with index := -1, clearCount := res.2 },
      clearIfMaxUnsubscribeCountIsReached st')
  else (u, st)

mutual

/-- Embeds `#dispatch` (lines 104-128) with explicit fuel.  The guard
checks mirror lines 105-111; on success the listener loop runs, then the
unique reset or the compaction check (lines 120-125), then the reentrancy
flag is cleared (line 127).  There is no try/finally in the source, so
when the loop propagates a listener exception the flag is NOT cleared. -/
def dispatchF (fuel : Nat) (v : V) (st : MState V) :
    Option (Except EmError Unit × MState V) :=
  match fuel with
  | 0 => none
  | fuel + 1 =>
    if st.dispatching then some (.error .reentrancy, st)
    else if isUniqueAndDone st then some (.error .alreadyEmitted, st)
    else
      let st1 := { st with dispatching := true, dispatchCount := st.dispatchCount + 1 }
      match loopF fuel v 0 st1 with
      | none => none
      | some (.error e, st2) => some (.error e, st2)
      | some (.ok _, st2) =>
        let st3 :=
          if st2.unique then { st2 with clearCount := 1, listeners := [] }
          else clearIfMaxUnsubscribeCountIsReached st2
        some (.ok (), { st3 with dispatching := false })

/-- Embeds the listener loop of `#dispatch` (lines 116-118):
`for (let i = 0; i < this.#listeners.length; i++) this.#listeners[i](value)`.
The length is re-read on every iteration, so listeners appended during the
loop are also visited.  A tombstoned slot holds `noop`, whose invocation
does nothing.  Invoking an active slot runs its deep-embedded body; an
exception from the body propagates and aborts the loop. -/
def loopF (fuel : Nat) (v : V) (i : Nat) (st : MState V) :
    Option (Except EmError Unit × MState V) :=
  match fuel with
  | 0 => none
  | fuel + 1 =>
    if h : i < st.listeners.length then
      match st.listeners.get ⟨i, h⟩ with
      | none => loopF fuel v (i + 1) st
      | some (id, act) =>
        match invokeF fuel id act v st with
        | none => none
        | some (.error e, st') => some (.error e, st')
        | some (.ok _, st') => loopF fuel v (i + 1) st'
    else some (.ok (), st)

/-- Runs one listener body (user code, deep-embedded as `LAct`).  Every
body first records its own invocation in the `invoked` log. -/
def invokeF (fuel : Nat) (id : Nat) (act : LAct V) (v : V) (st : MState V) :
    Option (Except EmError Unit × MState V) :=
  match fuel with
  | 0 => none
  | fuel + 1 =>
    let st0 := { st with invoked := st.invoked ++ [(id, v)] }
    match act with
    | .pure => some (.ok (), st0)
    | .throwL tag => some (.error (.listenerThrow tag), st0)
    | .reDispatchCatch w =>
      match dispatchF fuel w st0 with
      | none => none
      | some (.error e, st') =>
        some (.ok (), { st' with caught := st'.caught ++ [e] })
      | some (.ok _, st') => some (.ok (), st')
    | .listenNew j =>
      match listen j .pure st0 with
      | (.error e, st') => some (.error e, st')
      | (.ok _, st') => some (.ok (), st')
end



/-!
Basic equation and preservation lemmas about the synchronous dispatch.
-/

variable {V : Type}

/-- Fields of the emitter state that the dispatch listener loop can never
change: a listener body may only append listeners (via `listen`) and
extend the observation logs. -/
structure Preserves (st st' : MState V) : Prop where
  listeners : ∃ ext, st'.listeners = st.listeners ++ ext
  unique : st'.unique = st.unique
  dispatching : st'.dispatching = st.dispatching
  dispatchCount : st'.dispatchCount = st.dispatchCount
  unsubscribeCount : st'.unsubscribeCount = st.unsubscribeCount
  clearCount : st'.clearCount = st.clearCount
  lauError : st'.listenAfterUniqueDispatchedError = st.listenAfterUniqueDispatchedError

theorem Preserves.self (st : MState V) : Preserves st st :=
  ⟨⟨[], by simp⟩, rfl, rfl, rfl, rfl, rfl, rfl⟩

theorem Preserves.trans {s1 s2 s3 : MState V}
    (h1 : Preserves s1 s2) (h2 : Preserves s2 s3) : Preserves s1 s3 := by
  obtain ⟨e1, he1⟩ := h1.listeners
  obtain ⟨e2, he2⟩ := h2.listeners
  refine ⟨⟨e1 ++ e2, by simp [he2, he1]⟩, ?_, ?_, ?_, ?_, ?_, ?_⟩
  · rw [h2.unique, h1.unique]
  · rw [h2.dispatching, h1.dispatching]
  · rw [h2.dispatchCount, h1.dispatchCount]
  · rw [h2.unsubscribeCount, h1.unsubscribeCount]
  · rw [h2.clearCount, h1.clearCount]
  · rw [h2.lauError, h1.lauError]

/-- Guard check of line 105: a dispatch while `dispatching` is set fails
immediately with the reentrancy error and changes nothing. -/
theorem dispatchF_of_dispatching (fuel : Nat) (v : V) (st : MState V)
    (h : st.dispatching = true) :
    dispatchF (fuel + 1) v st = some (.error .reentrancy, st) := by
  simp [dispatchF, h]

/-- Guard check of line 109: a dispatch on a unique emitter that has
already dispatched fails with the already-emitted error and changes
nothing. -/
theorem dispatchF_of_uniqueAndDone (fuel : Nat) (v : V) (st : MState V)
    (h1 : st.dispatching = false) (h2 : isUniqueAndDone st = true) :
    dispatchF (fuel + 1) v st = some (.error .alreadyEmitted, st) := by
  simp [dispatchF, h1, h2]

/-- Unfolding of `dispatchF` when both guard checks pass. -/
theorem dispatchF_run (fuel : Nat) (v : V) (st : MState V)
    (h1 : st.dispatching = false) (h2 : isUniqueAndDone st = false) :
    dispatchF (fuel + 1) v st =
      (match loopF fuel v 0
          { st with dispatching := true, dispatchCount := st.dispatchCount + 1 } with
        | none => none
        | some (.error e, st2) => some (.error e, st2)
        | some (.ok _, st2) =>
          some (.ok (),
            { (if st2.unique then { st2 with clearCount := 1, listeners := [] }
               else clearIfMaxUnsubscribeCountIsReached st2) with dispatching := false })) := by
  rw [dispatchF]
  rw [if_neg (by simp [h1]), if_neg (by simp [h2])]

theorem invokeF_pure (fuel : Nat) (id : Nat) (v : V) (st : MState V) :
    invokeF (fuel + 1) id .pure v st =
      some (.ok (), { st with invoked := st.invoked ++ [(id, v)] }) := rfl

theorem invokeF_throwL (fuel : Nat) (id tag : Nat) (v : V) (st : MState V) :
    invokeF (fuel + 1) id (.throwL tag) v st =
      some (.error (.listenerThrow tag), { st with invoked := st.invoked ++ [(id, v)] }) := rfl

/-- During a dispatch cycle the `dispatching` flag is set, so a listener
that re-dispatches gets the reentrancy error back (and catches it). -/
theorem invokeF_reDispatchCatch (fuel : Nat) (id : Nat) (w v : V) (st : MState V)
    (hd : st.dispatching = true) :
    invokeF (fuel + 2) id (.reDispatchCatch w) v st =
      some (.ok (), { st with invoked := st.invoked ++ [(id, v)],
                              caught := st.caught ++ [.reentrancy] }) := by
  simp only [invokeF]
  rw [dispatchF_of_dispatching fuel w { st with invoked := st.invoked ++ [(id, v)] } hd]

/-- A listener body that registers a fresh listener while the emitter is
not in the unique-and-done state appends the new listener to the
registry. -/
theorem invokeF_listenNew (fuel : Nat) (id j : Nat) (v : V) (st : MState V)
    (h : isUniqueAndDone st = false) :
    invokeF (fuel + 1) id (.listenNew j) v st =
      some (.ok (), { st with invoked := st.invoked ++ [(id, v)],
                              listeners := st.listeners ++ [some (j, .pure)] }) := by
  have h0 : (st.unique && st.dispatchCount != 0) = false := h
  simp only [invokeF, listen, isUniqueAndDone, h0, Bool.false_eq_true, if_false]

/-- A listener body that registers on a unique emitter in `error` mode
after the unique dispatch started has the already-emitted error thrown at
it, which propagates out of the listener body. -/
theorem invokeF_listenNew_uniqueErr (fuel : Nat) (id j : Nat) (v : V) (st : MState V)
    (h : isUniqueAndDone st = true) (he : st.listenAfterUniqueDispatchedError = true) :
    invokeF (fuel + 1) id (.listenNew j) v st =
      some (.error .alreadyEmitted, { st with invoked := st.invoked ++ [(id, v)] }) := by
  have h0 : (st.unique && st.dispatchCount != 0) = true := h
  simp only [invokeF, listen, isUniqueAndDone, h0, he, if_true]

/-- A listener body that registers on a unique emitter in default mode
after the unique dispatch started is silently ignored. -/
theorem invokeF_listenNew_uniqueIgnore (fuel : Nat) (id j : Nat) (v : V) (st : MState V)
    (h : isUniqueAndDone st = true) (he : st.listenAfterUniqueDispatchedError = false) :
    invokeF (fuel + 1) id (.listenNew j) v st =
      some (.ok (), { st with invoked := st.invoked ++ [(id, v)] }) := by
  have h0 : (st.unique && st.dispatchCount != 0) = true := h
  simp only [invokeF, listen, isUniqueAndDone, h0, he, if_true, Bool.false_eq_true, if_false]

/-- Stepping the listener loop over a tombstoned slot: invoking `noop`
does nothing. -/
theorem loopF_none_slot (fuel : Nat) (v : V) (i : Nat) (st : MState V)
    (h : i < st.listeners.length) (hsl : st.listeners.get ⟨i, h⟩ = none) :
    loopF (fuel + 1) v i st = loopF fuel v (i + 1) st := by
  rw [loopF]; rw [dif_pos h, hsl]

/-- Stepping the listener loop over an active slot. -/
theorem loopF_some_slot (fuel : Nat) (v : V) (i : Nat) (st : MState V) (id : Nat) (act : LAct V)
    (h : i < st.listeners.length) (hsl : st.listeners.get ⟨i, h⟩ = some (id, act)) :
    loopF (fuel + 1) v i st =
      (match invokeF fuel id act v st with
        | none => none
        | some (.error e, st') => some (.error e, st')
        | some (.ok _, st') => loopF fuel v (i + 1) st') := by
  rw [loopF]; rw [dif_pos h, hsl]

/-- The loop terminates normally as soon as the index reaches the current
registry length. -/
theorem loopF_done (fuel : Nat) (v : V) (i : Nat) (st : MState V)
    (h : st.listeners.length ≤ i) :
    loopF (fuel + 1) v i st = some (.ok (), st) := by
  rw [loopF]; rw [dif_neg (by omega)]

/-- Running a listener body during a dispatch cycle keeps all the fields
in `Preserves` unchanged (or out of fuel). -/
theorem invokeF_shape (fuel : Nat) (id : Nat) (act : LAct V) (v : V) (st : MState V)
    (hd : st.dispatching = true) :
    invokeF fuel id act v st = none ∨
      ∃ r st', invokeF fuel id act v st = some (r, st') ∧ Preserves st st' := by
  rcases fuel with _ | fuel
  · exact .inl rfl
  cases act with
  | pure =>
    refine .inr ⟨_, _, invokeF_pure fuel id v st, ?_⟩
    exact ⟨⟨[], by simp⟩, by simp, by simp, by simp, by simp, by simp, by simp⟩
  | throwL tag =>
    refine .inr ⟨_, _, invokeF_throwL fuel id tag v st, ?_⟩
    exact ⟨⟨[], by simp⟩, by simp, by simp, by simp, by simp, by simp, by simp⟩
  | reDispatchCatch w =>
    rcases fuel with _ | fuel
    · exact .inl rfl
    · refine .inr ⟨_, _, invokeF_reDispatchCatch fuel id w v st hd, ?_⟩
      exact ⟨⟨[], by simp⟩, by simp, by simp, by simp, by simp, by simp, by simp⟩
  | listenNew j =>
    rcases hu : isUniqueAndDone st with _ | _
    · refine .inr ⟨_, _, invokeF_listenNew fuel id j v st hu, ?_⟩
      exact ⟨⟨[some (j, .pure)], by simp⟩, by simp, by simp, by simp, by simp, by simp, by simp⟩
    · rcases he : st.listenAfterUniqueDispatchedError with _ | _
      · refine .inr ⟨_, _, invokeF_listenNew_uniqueIgnore fuel id j v st hu he, ?_⟩
        exact ⟨⟨[], by simp⟩, by simp, by simp, by simp, by simp, by simp, by simp⟩
      · refine .inr ⟨_, _, invokeF_listenNew_uniqueErr fuel id j v st hu he, ?_⟩
        exact ⟨⟨[], by simp⟩, by simp, by simp, by simp, by simp, by simp, by simp⟩

/-- The listener loop, run while the `dispatching` flag is set, keeps all
the fields in `Preserves` unchanged (or runs out of fuel). -/
theorem loopF_shape (fuel : Nat) (v : V) (i : Nat) (st : MState V)
    (hd : st.dispatching = true) :
    loopF fuel v i st = none ∨
      ∃ r st', loopF fuel v i st = some (r, st') ∧ Preserves st st' := by
  induction fuel generalizing i st with
  | zero => exact .inl rfl
  | succ fuel ih =>
    by_cases h : i < st.listeners.length
    · rcases hsl : st.listeners.get ⟨i, h⟩ with _ | ⟨id, act⟩
      · rw [loopF_none_slot fuel v i st h hsl]
        exact ih (i + 1) st hd
      · rw [loopF_some_slot fuel v i st id act h hsl]
        rcases invokeF_shape fuel id act v st hd with hnone | ⟨r, st', heq, hpres⟩
        · rw [hnone]; exact .inl rfl
        · rcases r with e | u
          · rw [heq]; exact .inr ⟨_, _, rfl, hpres⟩
          · rw [heq]
            show loopF fuel v (i + 1) st' = none ∨
              ∃ r st'', loopF fuel v (i + 1) st' = some (r, st'') ∧ Preserves st st''
            have hd' : st'.dispatching = true := hpres.dispatching.trans hd
            rcases ih (i + 1) st' hd' with hnone' | ⟨r', st'', heq', hpres'⟩
            · rw [hnone']; exact .inl rfl
            · rw [heq']; exact .inr ⟨_, _, rfl, hpres.trans hpres'⟩
    · rw [loopF_done fuel v i st (by omega)]
      exact .inr ⟨_, _, rfl, Preserves.self st⟩

theorem clearIfMax_of_lt (st : MState V) (h : st.unsubscribeCount < maxUnsubscribeCount) :
    clearIfMaxUnsubscribeCountIsReached st = st := by
  rw [clearIfMaxUnsubscribeCountIsReached, if_neg (by omega)]

theorem clearIfMax_proj (st : MState V) :
    (clearIfMaxUnsubscribeCountIsReached st).unique = st.unique ∧
    (clearIfMaxUnsubscribeCountIsReached st).dispatching = st.dispatching ∧
    (clearIfMaxUnsubscribeCountIsReached st).dispatchCount = st.dispatchCount ∧
    (clearIfMaxUnsubscribeCountIsReached st).invoked = st.invoked ∧
    (clearIfMaxUnsubscribeCountIsReached st).caught = st.caught ∧
    (clearIfMaxUnsubscribeCountIsReached st).listenAfterUniqueDispatchedError
      = st.listenAfterUniqueDispatchedError := by
  rw [clearIfMaxUnsubscribeCountIsReached]
  split <;> simp [clear]

/-- Projections of the state finalization at the end of a successful
dispatch (lines 120-127). -/
theorem finalize_proj (st2 : MState V) :
    ({ (if st2.unique then { st2 with clearCount := 1, listeners := [] }
        else clearIfMaxUnsubscribeCountIsReached st2) with
        dispatching := false } : MState V).dispatching = false ∧
    ({ (if st2.unique then { st2 with clearCount := 1, listeners := [] }
        else clearIfMaxUnsubscribeCountIsReached st2) with
        dispatching := false } : MState V).dispatchCount = st2.dispatchCount ∧
    ({ (if st2.unique then { st2 with clearCount := 1, listeners := [] }
        else clearIfMaxUnsubscribeCountIsReached st2) with
        dispatching := false } : MState V).unique = st2.unique ∧
    ({ (if st2.unique then { st2 with clearCount := 1, listeners := [] }
        else clearIfMaxUnsubscribeCountIsReached st2) with
        dispatching := false } : MState V).invoked = st2.invoked := by
  by_cases hu : st2.unique = true
  · simp [hu]
  · simp only [if_neg hu]
    exact ⟨trivial, (clearIfMax_proj st2).2.2.1, (clearIfMax_proj st2).1,
      (clearIfMax_proj st2).2.2.2.1⟩

/-- A dispatch call that completes normally passed both guard checks,
cleared the reentrancy flag, and incremented the dispatch counter. -/
theorem dispatchF_ok_post (fuel : Nat) (v : V) (st : MState V) (r : Unit) (st' : MState V)
    (heq : dispatchF fuel v st = some (.ok r, st')) :
    st.dispatching = false ∧ isUniqueAndDone st = false ∧
    st'.dispatching = false ∧ st'.dispatchCount = st.dispatchCount + 1 ∧
    st'.unique = st.unique := by
  rcases fuel with _ | fuel
  · exact absurd heq (by simp [dispatchF])
  rcases hd : st.dispatching with _ | _
  rotate_left
  · rw [dispatchF_of_dispatching fuel v st hd] at heq
    simp at heq
  rcases hq : isUniqueAndDone st with _ | _
  rotate_left
  · rw [dispatchF_of_uniqueAndDone fuel v st hd hq] at heq
    simp at heq
  refine ⟨rfl, rfl, ?_⟩
  rw [dispatchF_run fuel v st hd hq] at heq
  rcases hl : loopF fuel v 0
      { st with dispatching := true, dispatchCount := st.dispatchCount + 1 } with _ | ⟨r2, st2⟩
  · rw [hl] at heq; simp at heq
  rcases r2 with e | u
  · rw [hl] at heq; simp at heq
  rw [hl] at heq
  simp only [Option.some.injEq, Prod.mk.injEq] at heq
  obtain ⟨-, hst'⟩ := heq
  rcases loopF_shape fuel v 0
      { st with dispatching := true, dispatchCount := st.dispatchCount + 1 } rfl with
    hnone | ⟨r3, st3, heq3, hpres⟩
  · rw [hnone] at hl; exact absurd hl (by simp)
  rw [heq3] at hl
  simp only [Option.some.injEq, Prod.mk.injEq] at hl
  obtain ⟨-, hst23⟩ := hl
  rw [hst23] at hpres
  have hcnt : st2.dispatchCount = st.dispatchCount + 1 := hpres.dispatchCount
  have huq : st2.unique = st.unique := hpres.unique
  rw [← hst']
  obtain ⟨f1, f2, f3, -⟩ := finalize_proj st2
  exact ⟨f1, by rw [f2, hcnt], by rw [f3, huq]⟩

/-- A dispatch call that passed both guard checks and then failed (a
listener body threw) leaves the reentrancy flag SET: the source has no
try/finally around the listener loop. -/
theorem dispatchF_err_post (fuel : Nat) (v : V) (st : MState V) (e : EmError) (st' : MState V)
    (h1 : st.dispatching = false) (h2 : isUniqueAndDone st = false)
    (heq : dispatchF fuel v st = some (.error e, st')) :
    st'.dispatching = true ∧ st'.dispatchCount = st.dispatchCount + 1 ∧
    st'.unique = st.unique := by
  rcases fuel with _ | fuel
  · exact absurd heq (by simp [dispatchF])
  rw [dispatchF_run fuel v st h1 h2] at heq
  rcases hl : loopF fuel v 0
      { st with dispatching := true, dispatchCount := st.dispatchCount + 1 } with _ | ⟨r2, st2⟩
  · rw [hl] at heq; simp at heq
  rcases r2 with e2 | u
  rotate_left
  · rw [hl] at heq; simp at heq
  rw [hl] at heq
  simp only [Option.some.injEq, Prod.mk.injEq, Except.error.injEq] at heq
  obtain ⟨-, hst'⟩ := heq
  subst hst'
  rcases loopF_shape fuel v 0
      { st with dispatching := true, dispatchCount := st.dispatchCount + 1 } rfl with
    hnone | ⟨r3, st3, heq3, hpres⟩
  · rw [hnone] at hl; exact absurd hl (by simp)
  rw [heq3] at hl
  simp only [Option.some.injEq, Prod.mk.injEq] at hl
  obtain ⟨-, hst23⟩ := hl
  subst hst23
  exact ⟨hpres.dispatching, hpres.dispatchCount, hpres.unique⟩



/-!
Arbitrary client interaction histories: any interleaving of dispatch,
registration and unregistration calls, starting from a fresh emitter.
-/

/-- One operation performed by client code on the emitter. -/
inductive Op (V : Type) where
  | dispatchOp (fuel : Nat) (v : V)
  | listenOp (lid : Nat) (act : LAct V)
  | undoOp (k : Nat)

/-- The emitter state together with the undo handles handed out so far and
the outcome of every dispatch call made so far.  A `none` outcome marks a
fuel-exhausted model run (no counterpart in the source, where the loop
simply keeps going). -/
structure World (V : Type) where
  st : MState V
  undos : List Undo
  dispatchOutcomes : List (Option (Except EmError Unit))

/-- A freshly constructed emitter with no history. -/
def initWorld (unique lauError : Bool) : World V :=
  { st := mkState unique lauError, undos := [], dispatchOutcomes := [] }

/-- Runs one client operation: a dispatch call (recording its outcome), a
`listen` call (recording the returned undo handle), or an invocation of a
previously returned undo handle. -/
def runOp (w : World V) : Op V → World V
  | .dispatchOp fuel v =>
    match dispatchF fuel v w.st with
    | none => { w with dispatchOutcomes := w.dispatchOutcomes ++ [none] }
    | some (r, st') =>
      { w with st := st', dispatchOutcomes := w.dispatchOutcomes ++ [some r] }
  | .listenOp lid act =>
    match listen lid act w.st with
    | (.error _, st') => { w with st := st' }
    | (.ok u, st') => { w with st := st', undos := w.undos ++ [u] }
  | .undoOp k =>
    match w.undos.get? k with
    | none => w
    | some u =>
      { w with st := (runUndo u w.st).2, undos := w.undos.set k (runUndo u w.st).1 }

/-- Runs a whole interaction history. -/
def runOps (w : World V) (ops : List (Op V)) : World V := ops.foldl runOp w

/-- Some dispatch call in the history returned normally. -/
def Succeeded (w : World V) : Prop := some (.ok ()) ∈ w.dispatchOutcomes

/-- The `listen` method never touches the dispatch bookkeeping fields. -/
theorem listen_proj (lid : Nat) (act : LAct V) (st : MState V) :
    (listen lid act st).2.dispatching = st.dispatching ∧
    (listen lid act st).2.dispatchCount = st.dispatchCount ∧
    (listen lid act st).2.unique = st.unique ∧
    (listen lid act st).2.unsubscribeCount = st.unsubscribeCount ∧
    (listen lid act st).2.clearCount = st.clearCount := by
  rw [listen]
  split
  · split <;> simp
  · simp

/-- The undo closure never touches the dispatch bookkeeping fields. -/
theorem runUndo_proj (u : Undo) (st : MState V) :
    (runUndo u st).2.dispatching = st.dispatching ∧
    (runUndo u st).2.dispatchCount = st.dispatchCount ∧
    (runUndo u st).2.unique = st.unique := by
  rw [runUndo]
  split
  · exact ⟨(clearIfMax_proj _).2.1, (clearIfMax_proj _).2.2.1, (clearIfMax_proj _).1⟩
  · exact ⟨rfl, rfl, rfl⟩

/-- Key invariant for unique emitters: across any interaction history, the
emitter is in the state "reentrancy flag down and dispatch counter
nonzero" exactly when some dispatch call has already returned normally.
In particular the flag can stay up forever after a listener throw, in
which case no dispatch ever succeeded and none ever will. -/
theorem runOp_unique_inv (w : World V) (op : Op V)
    (hu : w.st.unique = true)
    (hinv : (w.st.dispatching = false ∧ w.st.dispatchCount ≠ 0) ↔ Succeeded w) :
    (runOp w op).st.unique = true ∧
      (((runOp w op).st.dispatching = false ∧ (runOp w op).st.dispatchCount ≠ 0) ↔
        Succeeded (runOp w op)) := by
  cases op with
  | dispatchOp fuel v =>
    rcases fuel with _ | fuel
    · have h0 : dispatchF 0 v w.st = none := rfl
      simp only [runOp, h0]
      refine ⟨hu, ?_⟩
      rw [hinv]
      simp [Succeeded]
    rcases hd : w.st.dispatching with _ | _
    rotate_left
    · rw [show runOp w (.dispatchOp (fuel + 1) v) =
          { w with dispatchOutcomes := w.dispatchOutcomes ++ [some (.error .reentrancy)] } by
        simp [runOp, dispatchF_of_dispatching fuel v w.st hd]]
      refine ⟨hu, ?_⟩
      simp only [hd]
      constructor
      · rintro ⟨h, -⟩; cases h
      · intro hs
        have hs' : Succeeded w := by simpa [Succeeded] using hs
        exact absurd (hinv.mpr hs').1 (by simp [hd])
    rcases hq : isUniqueAndDone w.st with _ | _
    rotate_left
    · rw [show runOp w (.dispatchOp (fuel + 1) v) =
          { w with dispatchOutcomes := w.dispatchOutcomes ++ [some (.error .alreadyEmitted)] } by
        simp [runOp, dispatchF_of_uniqueAndDone fuel v w.st hd hq]]
      have hc : w.st.dispatchCount ≠ 0 := by
        have := hq
        simp [isUniqueAndDone] at this
        exact this.2
      have hs : Succeeded w := hinv.mp ⟨hd, hc⟩
      refine ⟨hu, ?_⟩
      constructor
      · intro _; simpa [Succeeded] using hs
      · intro _; exact ⟨hd, hc⟩
    · have hc0 : w.st.dispatchCount = 0 := by
        have := hq
        simp [isUniqueAndDone, hu] at this
        exact this
      have hnos : ¬ Succeeded w := fun hs => ((hinv.mpr hs).2 hc0)
      rcases hres : dispatchF (fuel + 1) v w.st with _ | ⟨r, st'⟩
      · simp only [runOp, hres]
        refine ⟨hu, ?_⟩
        constructor
        · rintro ⟨-, hcc⟩; exact absurd hc0 hcc
        · intro hs
          have hs' : Succeeded w := by simpa [Succeeded] using hs
          exact absurd hs' hnos
      rcases r with e | u
      · simp only [runOp, hres]
        obtain ⟨hf, -, -⟩ := dispatchF_err_post (fuel + 1) v w.st e st' hd hq hres
        refine ⟨by rw [(dispatchF_err_post (fuel + 1) v w.st e st' hd hq hres).2.2, hu], ?_⟩
        constructor
        · rintro ⟨hff, -⟩; rw [hf] at hff; cases hff
        · intro hs
          have hs' : Succeeded w := by simpa [Succeeded] using hs
          exact absurd hs' hnos
      · simp only [runOp, hres]
        obtain ⟨-, -, hf, hcnt, huq⟩ := dispatchF_ok_post (fuel + 1) v w.st u st' hres
        refine ⟨by rw [huq, hu], ?_⟩
        constructor
        · intro _; simp [Succeeded]
        · intro _; exact ⟨hf, by rw [hcnt]; omega⟩
  | listenOp lid act =>
    have hp := listen_proj lid act w.st
    rcases hl : listen lid act w.st with ⟨r0, st0⟩
    rw [hl] at hp
    rcases r0 with e | u0
    · simp only [runOp, hl]
      exact ⟨hp.2.2.1.symm ▸ hu, by rw [hp.1, hp.2.1]; exact hinv⟩
    · simp only [runOp, hl]
      exact ⟨hp.2.2.1.symm ▸ hu, by rw [hp.1, hp.2.1]; exact hinv⟩
  | undoOp k =>
    rcases hk : w.undos.get? k with _ | u
    · simp only [runOp, hk]
      exact ⟨hu, hinv⟩
    · have hp := runUndo_proj u w.st
      simp only [runOp, hk]
      exact ⟨hp.2.2.symm ▸ hu, by rw [hp.1, hp.2.1]; exact hinv⟩



/-- Lifts `runOp_unique_inv` over a whole interaction history, starting
from a fresh unique emitter. -/
theorem runOps_unique_inv (lau : Bool) (ops : List (Op V)) :
    (runOps (initWorld true lau) ops).st.unique = true ∧
      (((runOps (initWorld true lau) ops).st.dispatching = false ∧
        (runOps (initWorld true lau) ops).st.dispatchCount ≠ 0) ↔
        Succeeded (runOps (initWorld true lau) ops)) := by
  suffices h : ∀ w : World V, w.st.unique = true →
      ((w.st.dispatching = false ∧ w.st.dispatchCount ≠ 0) ↔ Succeeded w) →
      (runOps w ops).st.unique = true ∧
        (((runOps w ops).st.dispatching = false ∧ (runOps w ops).st.dispatchCount ≠ 0) ↔
          Succeeded (runOps w ops)) by
    refine h _ rfl ?_
    constructor
    · rintro ⟨-, h0⟩; exact absurd rfl h0
    · intro hs; simp [Succeeded, initWorld] at hs
  induction ops with
  | nil => intro w hu hinv; exact ⟨hu, hinv⟩
  | cons op ops ih =>
    intro w hu hinv
    have step := runOp_unique_inv w op hu hinv
    have : runOps w (op :: ops) = runOps (runOp w op) ops := rfl
    rw [this]
    exact ih (runOp w op) step.1 step.2

/-- The compaction check does nothing when there are no counted
tombstones. -/
theorem clearIfMax_zero (st : MState V) (h : st.unsubscribeCount = 0) :
    clearIfMaxUnsubscribeCountIsReached st = st :=
  clearIfMax_of_lt st (by simp [h, maxUnsubscribeCount])

/-- Dispatch on a non-unique emitter never changes `unsubscribeCount` or
`clearCount` from zero: the compaction check can never fire from a
zero-count state. -/
theorem dispatchF_zero_counts (fuel : Nat) (v : V) (st : MState V)
    (r : Except EmError Unit) (st' : MState V)
    (hu : st.unique = false) (h0 : st.unsubscribeCount = 0) (hc : st.clearCount = 0)
    (heq : dispatchF fuel v st = some (r, st')) :
    st'.unique = false ∧ st'.unsubscribeCount = 0 ∧ st'.clearCount = 0 := by
  rcases fuel with _ | fuel
  · exact absurd heq (by simp [dispatchF])
  rcases hd : st.dispatching with _ | _
  rotate_left
  · rw [dispatchF_of_dispatching fuel v st hd] at heq
    simp only [Option.some.injEq, Prod.mk.injEq] at heq
    rw [← heq.2]
    exact ⟨hu, h0, hc⟩
  have hq : isUniqueAndDone st = false := by simp [isUniqueAndDone, hu]
  rw [dispatchF_run fuel v st hd hq] at heq
  rcases hl : loopF fuel v 0
      { st with dispatching := true, dispatchCount := st.dispatchCount + 1 } with _ | ⟨r2, st2⟩
  · rw [hl] at heq; simp at heq
  rw [hl] at heq
  rcases loopF_shape fuel v 0
      { st with dispatching := true, dispatchCount := st.dispatchCount + 1 } rfl with
    hnone | ⟨r3, st3, heq3, hpres⟩
  · rw [hnone] at hl; exact absurd hl (by simp)
  have hlink : st3 = st2 := by
    rw [heq3] at hl
    exact (by simpa using hl : _ ∧ st3 = st2).2
  rw [hlink] at hpres
  have huq2 : st2.unique = false := by rw [hpres.unique]; exact hu
  have hu02 : st2.unsubscribeCount = 0 := by rw [hpres.unsubscribeCount]; exact h0
  have hcc2 : st2.clearCount = 0 := by rw [hpres.clearCount]; exact hc
  rcases r2 with e | u
  · simp only [Option.some.injEq, Prod.mk.injEq] at heq
    rw [← heq.2]
    exact ⟨huq2, hu02, hcc2⟩
  · simp only [huq2, Bool.false_eq_true, if_false, Option.some.injEq, Prod.mk.injEq,
      clearIfMax_zero st2 hu02] at heq
    obtain ⟨-, hst'⟩ := heq
    rw [← hst']
    exact ⟨rfl, hu02, hcc2⟩

/-- The undo closure run from a zero-tombstone-count state: it never
increments `unsubscribeCount` (the source simply has no such increment),
so the compaction check inside it can never fire. -/
theorem runUndo_zero_counts (u : Undo) (st : MState V) (h0 : st.unsubscribeCount = 0) :
    (runUndo u st).2.unsubscribeCount = 0 ∧ (runUndo u st).2.clearCount = st.clearCount ∧
    (runUndo u st).2.unique = st.unique := by
  rw [runUndo]
  split
  · simp [clearIfMax_zero, h0]
  · simp [h0]

/-- One client operation on a default (non-unique) emitter keeps
`unsubscribeCount` and `clearCount` at zero. -/
theorem runOp_default_inv (w : World V) (op : Op V)
    (h : w.st.unique = false ∧ w.st.unsubscribeCount = 0 ∧ w.st.clearCount = 0) :
    (runOp w op).st.unique = false ∧ (runOp w op).st.unsubscribeCount = 0 ∧
      (runOp w op).st.clearCount = 0 := by
  obtain ⟨hu, h0, hc⟩ := h
  cases op with
  | dispatchOp fuel v =>
    rcases hres : dispatchF fuel v w.st with _ | ⟨r, st'⟩
    · simp only [runOp, hres]; exact ⟨hu, h0, hc⟩
    · simp only [runOp, hres]
      exact dispatchF_zero_counts fuel v w.st r st' hu h0 hc hres
  | listenOp lid act =>
    have hp := listen_proj lid act w.st
    rcases hl : listen lid act w.st with ⟨r0, st0⟩
    rw [hl] at hp
    rcases r0 with e | u0 <;> simp only [runOp, hl] <;>
      exact ⟨hp.2.2.1.trans hu, hp.2.2.2.1.trans h0, hp.2.2.2.2.trans hc⟩
  | undoOp k =>
    rcases hk : w.undos.get? k with _ | u
    · simp only [runOp, hk]; exact ⟨hu, h0, hc⟩
    · have hz := runUndo_zero_counts u w.st h0
      simp only [runOp, hk]
      exact ⟨hz.2.2.trans hu, hz.1, hz.2.1.trans hc⟩

/-- Lifts `runOp_default_inv` over a whole interaction history. -/
theorem runOps_default_inv (ops : List (Op V)) :
    (runOps (initWorld false false) ops).st.unique = false ∧
    (runOps (initWorld false false) ops).st.unsubscribeCount = 0 ∧
    (runOps (initWorld false false) ops).st.clearCount = 0 := by
  suffices h : ∀ w : World V,
      w.st.unique = false ∧ w.st.unsubscribeCount = 0 ∧ w.st.clearCount = 0 →
      (runOps w ops).st.unique = false ∧ (runOps w ops).st.unsubscribeCount = 0 ∧
        (runOps w ops).st.clearCount = 0 by
    exact h _ ⟨rfl, rfl, rfl⟩
  induction ops with
  | nil => intro w h; exact h
  | cons op ops ih =>
    intro w h
    have : runOps w (op :: ops) = runOps (runOp w op) ops := rfl
    rw [this]
    exact ih (runOp w op) (runOp_default_inv w op h)




/-- Claim C4 (amended).  For every emitter constructed with `unique = true`
(either `listenAfterUniqueDispatched` mode) and any interaction history,
a dispatch call is rejected by the uniqueness guard with
`AlreadyEmittedError` — failing before invoking any listener and leaving
the emitter state unchanged — exactly when a prior dispatch call already
succeeded.  In particular, after one successful dispatch every subsequent
dispatch fails this way, and with no prior successful dispatch the guard
never fires (though in `error` mode an `AlreadyEmittedError` thrown at a
listener that registers during the first dispatch can still propagate out
of that dispatch call, see the counterexample). -/
theorem C4_unique_guard_alreadyEmitted_iff_prior_success
    (lau : Bool) (ops : List (Op V)) (fuel : Nat) (v : V) :
    (dispatchF (fuel + 1) v (runOps (initWorld true lau) ops).st =
        some (.error .alreadyEmitted, (runOps (initWorld true lau) ops).st)) ↔
      Succeeded (runOps (initWorld true lau) ops) := by
  obtain ⟨hu, hinv⟩ := runOps_unique_inv lau ops
  constructor
  · intro heq
    rcases hd : (runOps (initWorld true lau) ops).st.dispatching with _ | _
    rotate_left
    · rw [dispatchF_of_dispatching fuel v _ hd] at heq
      simp at heq
    rcases hq : isUniqueAndDone (runOps (initWorld true lau) ops).st with _ | _
    · rcases hres : dispatchF (fuel + 1) v (runOps (initWorld true lau) ops).st with _ | ⟨r, st'⟩
      · rw [hres] at heq; cases heq
      rcases r with e | u
      · have hpost := dispatchF_err_post (fuel + 1) v _ e st' hd hq hres
        rw [hres] at heq
        simp only [Option.some.injEq, Prod.mk.injEq] at heq
        obtain ⟨-, hss⟩ := heq
        rw [hss] at hpost
        rw [hpost.1] at hd
        cases hd
      · rw [hres] at heq; simp at heq
    · have hc : (runOps (initWorld true lau) ops).st.dispatchCount ≠ 0 := by
        have h := hq
        simp [isUniqueAndDone, hu] at h
        exact h
      exact hinv.mp ⟨hd, hc⟩
  · intro hs
    obtain ⟨hd, hc⟩ := hinv.mpr hs
    exact dispatchF_of_uniqueAndDone fuel v _ hd (by simp [isUniqueAndDone, hu, hc])

/-- Evaluation of the undo closure in the common case: the handle is
still armed, no clear happened since registration, and no tombstones are
counted (the latter is invariant, see `runOps_default_inv`): the slot at
the captured index is overwritten with `noop` and nothing else happens. -/
theorem runUndo_cc_match (u : Undo) (st : MState V)
    (hix : (u.index != -1) = true) (hcc : u.clearCount = st.clearCount)
    (h0 : st.unsubscribeCount = 0) :
    runUndo u st = ({ u with index := -1 },
      { st with listeners := setSlot u.index none st.listeners }) := by
  have hcc' : (u.clearCount != st.clearCount) = false := by simp [hcc]
  simp only [runUndo, hix, if_true, hcc', Bool.false_eq_true, if_false]
  rw [clearIfMax_zero { st with listeners := setSlot u.index none st.listeners } h0]

/-- The claimed compaction scenario, as a recursively defined interaction:
`churn n` performs `n` register/unregister rounds, invoking each undo
handle right after its registration (so after `churn n` the registry
holds `n` tombstones and `n` unregistrations have happened). -/
def churn : Nat → MState V
  | 0 => mkState false false
  | n + 1 =>
    match listen n .pure (churn n) with
    | (.ok u, st') => (runUndo u st').2
    | (.error _, st') => st'

/-- After `n` register/unregister rounds the registry holds exactly `n`
tombstoned slots and every counter is still zero: `unsubscribeCount` was
never incremented, so `#clear` never ran and no tombstone was ever
removed, no matter how large `n` is (in particular at the threshold 255). -/
theorem churn_eq (n : Nat) :
    churn n = { (mkState false false : MState V) with listeners := List.replicate n none } := by
  induction n with
  | zero => rfl
  | succ n ih =>
    rw [churn, ih]
    have hlisten : listen n .pure
        { (mkState false false : MState V) with listeners := List.replicate n none } =
        (.ok { index := (n : Int), clearCount := 0, lid := n },
          { (mkState false false : MState V) with
            listeners := List.replicate n none ++ [some (n, .pure)] }) := by
      rw [listen]
      rw [if_neg (by simp [isUniqueAndDone, mkState])]
      simp [mkState]
    rw [hlisten]
    show (runUndo { index := (n : Int), clearCount := 0, lid := n }
        { (mkState false false : MState V) with
          listeners := List.replicate n none ++ [some (n, .pure)] }).2 = _
    rw [runUndo_cc_match _ _ (by simp) (by simp [mkState]) (by simp [mkState])]
    have hset : setSlot (n : Int) none
        (List.replicate n (none : Slot V) ++ [some (n, .pure)]) =
        List.replicate (n + 1) none := by
      rw [setSlot, if_neg (by omega)]
      rw [show ((n : Int)).toNat = n from by omega]
      rw [show List.replicate (n + 1) (none : Slot V) = List.replicate n none ++ [none] from
        (List.replicate_succ' _ _)]
      rw [List.set_append_right _ _ (by simp)]
      simp
    simp only [hset]



/-- Extracts the element at a position from a known suffix of the list. -/
theorem get_of_drop_cons {α : Type} {l : List α} {i : Nat} {x : α} {xs : List α}
    (hlen : i < l.length) (h : l.drop i = x :: xs) : l.get ⟨i, hlen⟩ = x := by
  have h0 : (l.drop i).head? = some x := by rw [h]; rfl
  rw [List.head?_drop] at h0
  rw [List.getElem?_eq_getElem hlen] at h0
  rw [List.get_eq_getElem]
  exact Option.some_injective _ h0

/-- Running the loop over a block of plain listeners (each body does
nothing) invokes each of them, in order, with the dispatched value, and
moves the loop index past the block. -/
theorem loopF_pure_block (ids : List Nat) (rest : List (Slot V)) (fuel : Nat) (v : V)
    (i : Nat) (st : MState V)
    (h : st.listeners.drop i = ids.map (fun a => some (a, LAct.pure)) ++ rest) :
    loopF (ids.length + (fuel + 1)) v i st =
      loopF (fuel + 1) v (i + ids.length)
        { st with invoked := st.invoked ++ ids.map (fun a => (a, v)) } := by
  induction ids generalizing i st with
  | nil => simp
  | cons a tl ih =>
    have hlen : i < st.listeners.length := by
      by_contra hc
      rw [List.drop_eq_nil_of_le (by omega)] at h
      simp at h
    have hget : st.listeners.get ⟨i, hlen⟩ = some (a, .pure) :=
      get_of_drop_cons hlen (by rw [h]; rfl)
    rw [show (a :: tl).length + (fuel + 1) = (tl.length + (fuel + 1)) + 1 by
      simp [List.length_cons]; omega]
    rw [loopF_some_slot (tl.length + (fuel + 1)) v i st a .pure hlen hget]
    rw [show tl.length + (fuel + 1) = (tl.length + fuel) + 1 by omega]
    rw [invokeF_pure (tl.length + fuel) a v st]
    rw [show (tl.length + fuel) + 1 = tl.length + (fuel + 1) by omega]
    have hdrop : ({ st with invoked := st.invoked ++ [(a, v)] } : MState V).listeners.drop (i + 1) =
        tl.map (fun a => some (a, LAct.pure)) ++ rest := by
      show st.listeners.drop (i + 1) = _
      rw [← List.tail_drop, h]
      rfl
    show loopF (tl.length + (fuel + 1)) v (i + 1)
        { st with invoked := st.invoked ++ [(a, v)] } = _
    rw [ih (i + 1) { st with invoked := st.invoked ++ [(a, v)] } hdrop]
    have : i + 1 + tl.length = i + (a :: tl).length := by simp [List.length_cons]; omega
    rw [this]
    have : (st.invoked ++ [(a, v)]) ++ tl.map (fun x => (x, v)) =
        st.invoked ++ (a :: tl).map (fun x => (x, v)) := by simp
    rw [this]

/-- Claim C3 (amended), part by part: a dispatch call that completes
normally leaves the reentrancy flag cleared; a call rejected by either
guard check leaves the whole state (hence the flag) unchanged; but a call
that passes the guards and then fails — a listener body throwing —
returns with the reentrancy flag still SET, because the source has no
try/finally: the emitter is left permanently rejecting every further
dispatch as reentrant. -/
theorem C3_dispatching_flag_behaviour :
    (∀ (fuel : Nat) (v : V) (st : MState V) (r : Unit) (st' : MState V),
        dispatchF fuel v st = some (.ok r, st') → st'.dispatching = false) ∧
    (∀ (fuel : Nat) (v : V) (st : MState V), st.dispatching = true →
        dispatchF (fuel + 1) v st = some (.error .reentrancy, st)) ∧
    (∀ (fuel : Nat) (v : V) (st : MState V), st.dispatching = false →
        isUniqueAndDone st = true →
        dispatchF (fuel + 1) v st = some (.error .alreadyEmitted, st)) ∧
    (∀ (fuel : Nat) (v : V) (st : MState V) (e : EmError) (st' : MState V),
        st.dispatching = false → isUniqueAndDone st = false →
        dispatchF fuel v st = some (.error e, st') → st'.dispatching = true) := by
  refine ⟨?_, ?_, ?_, ?_⟩
  · intro fuel v st r st' heq
    exact (dispatchF_ok_post fuel v st r st' heq).2.2.1
  · intro fuel v st h
    exact dispatchF_of_dispatching fuel v st h
  · intro fuel v st h1 h2
    exact dispatchF_of_uniqueAndDone fuel v st h1 h2
  · intro fuel v st e st' h1 h2 heq
    exact (dispatchF_err_post fuel v st e st' h1 h2 heq).1

/-- Claim C3, counterexample to the claim as stated: on the emitter whose
single listener throws, the dispatch call exits via the listener throw
and the `dispatching` flag is still true after the call returned — not
false as claimed for every exit path. -/
theorem C3_counterexample :
    dispatchF 3 (0 : Nat) (listen 0 (.throwL 5) (mkState false false)).2 =
      some (.error (.listenerThrow 5),
        { (mkState false false : MState Nat) with
          listeners := [some (0, .throwL 5)], dispatchCount := 1,
          dispatching := true, invoked := [(0, 0)] }) ∧
    ((listen 0 (.throwL 5) (mkState false false)).2 : MState Nat).dispatching = false ∧
    ({ (mkState false false : MState Nat) with
        listeners := [some (0, .throwL 5)], dispatchCount := 1,
        dispatching := true, invoked := [(0, 0)] }).dispatching = true := ⟨rfl, rfl, rfl⟩

/-- Witness for C3 (amended): the parts with hypotheses, applied at
concrete inputs: the normal completion of a dispatch on a fresh default
emitter leaves the flag down, and the throwing dispatch of the
counterexample state leaves it up. -/
theorem C3_witness :
    ({ (mkState false false : MState Nat) with dispatchCount := 1 }).dispatching = false ∧
    ({ (mkState false false : MState Nat) with
        listeners := [some (0, .throwL 5)], dispatchCount := 1,
        dispatching := true, invoked := [(0, 0)] }).dispatching = true := by
  constructor
  · exact C3_dispatching_flag_behaviour.1 2 0 (mkState false false) ()
      { (mkState false false : MState Nat) with dispatchCount := 1 } rfl
  · exact C3_dispatching_flag_behaviour.2.2.2 3 0
      (listen 0 (.throwL 5) (mkState false false)).2 (.listenerThrow 5)
      { (mkState false false : MState Nat) with
        listeners := [some (0, .throwL 5)], dispatchCount := 1,
        dispatching := true, invoked := [(0, 0)] } rfl rfl rfl

/-- Claim C4, counterexample to the claim as stated: on a unique emitter
in `listenAfterUniqueDispatched = error` mode whose listener registers a
new listener during its own invocation, the FIRST dispatch call (no prior
dispatch ever succeeded: `dispatchCount` is 0 beforehand) fails with the
already-emitted error, because `listen` inside the listener observes
`dispatchCount` already incremented and throws, and that exception
propagates out of the dispatch call. -/
theorem C4_counterexample :
    ((listen 0 (.listenNew 1) (mkState true true)).2 : MState Nat).dispatchCount = 0 ∧
    dispatchF 3 (0 : Nat) (listen 0 (.listenNew 1) (mkState true true)).2 =
      some (.error .alreadyEmitted,
        { (mkState true true : MState Nat) with
          listeners := [some (0, .listenNew 1)], dispatchCount := 1,
          dispatching := true, invoked := [(0, 0)] }) := ⟨rfl, rfl⟩




/-- Running the loop to the end of the registry over plain listeners:
each is invoked in order and the loop then completes normally. -/
theorem loopF_pure_tail (ids : List Nat) (fuel : Nat) (v : V) (i : Nat) (st : MState V)
    (h : st.listeners.drop i = ids.map (fun a => some (a, LAct.pure))) :
    loopF (ids.length + (fuel + 1)) v i st =
      some (.ok (), { st with invoked := st.invoked ++ ids.map (fun a => (a, v)) }) := by
  rw [loopF_pure_block ids [] fuel v i st (by simpa using h)]
  apply loopF_done
  have hle := congrArg List.length h
  simp only [List.length_drop, List.length_map] at hle
  show st.listeners.length ≤ i + ids.length
  omega


theorem loopF_reDispatch_mid (pres posts : List Nat) (b : Nat) (w v : V)
    (i : Nat) (st : MState V) (hd : st.dispatching = true)
    (h : st.listeners.drop i = pres.map (fun a => some (a, LAct.pure)) ++
      [some (b, .reDispatchCatch w)] ++ posts.map (fun a => some (a, LAct.pure))) :
    loopF (pres.length + posts.length + 3) v i st =
      some (.ok (),
        { st with
          invoked := st.invoked ++ (pres.map (fun a => (a, v)) ++ [(b, v)] ++
            posts.map (fun a => (a, v))),
          caught := st.caught ++ [.reentrancy] }) := by
  have hle := congrArg List.length h
  simp only [List.length_drop, List.length_append, List.length_map,
    List.length_cons, List.length_nil] at hle
  rw [show pres.length + posts.length + 3 = pres.length + ((posts.length + 2) + 1) by omega]
  rw [loopF_pure_block pres
    (some (b, .reDispatchCatch w) :: posts.map (fun a => some (a, LAct.pure)))
    (posts.length + 2) v i st (by rw [h]; simp)]
  have hlen2 : i + pres.length <
      ({ st with invoked := st.invoked ++ pres.map (fun a => (a, v)) } : MState V).listeners.length := by
    show i + pres.length < st.listeners.length
    omega
  have hdrop2 : ({ st with invoked := st.invoked ++ pres.map (fun a => (a, v)) } :
      MState V).listeners.drop (i + pres.length) =
      some (b, .reDispatchCatch w) :: posts.map (fun a => some (a, LAct.pure)) := by
    show st.listeners.drop (i + pres.length) = _
    rw [← List.drop_drop pres.length i st.listeners, h]
    rw [List.append_assoc]
    rw [List.drop_left' (show (pres.map (fun a : Nat => some (a, LAct.pure))).length
      = pres.length from by simp)]
    rfl
  have hget2 := get_of_drop_cons hlen2 hdrop2
  rw [loopF_some_slot (posts.length + 2) v (i + pres.length) _ b (.reDispatchCatch w)
    hlen2 hget2]
  rw [invokeF_reDispatchCatch posts.length b w v
    { st with invoked := st.invoked ++ pres.map (fun a => (a, v)) } hd]
  show loopF (posts.length + 2) v (i + pres.length + 1)
      { st with invoked := (st.invoked ++ pres.map (fun a => (a, v))) ++ [(b, v)],
                caught := st.caught ++ [.reentrancy] } = _
  rw [show posts.length + 2 = posts.length + (1 + 1) by omega]
  rw [loopF_pure_tail posts 1 v (i + pres.length + 1)
    { st with invoked := (st.invoked ++ pres.map (fun a => (a, v))) ++ [(b, v)],
              caught := st.caught ++ [.reentrancy] }
    (by
      show st.listeners.drop (i + pres.length + 1) = _
      rw [← List.tail_drop, hdrop2]
      rfl)]
  simp

/-- Claim C6.  A listener that calls `dispatch` on its own emitter during
its own invocation (catching what the inner call throws) causes that
inner call to fail with the reentrancy error, and the outer dispatch
still completes normally: with `pres` plain listeners before it and
`posts` plain listeners after it, every listener of the cycle is invoked
in order with the dispatched value, and the only error the re-dispatching
listener caught is the reentrancy error. -/
theorem C6_inner_dispatch_reentrancy_outer_completes (v w : V) (b : Nat) (pres posts : List Nat) :
    dispatchF (pres.length + posts.length + 4) v
        { (mkState false false : MState V) with
          listeners := pres.map (fun a => some (a, LAct.pure)) ++
            [some (b, .reDispatchCatch w)] ++ posts.map (fun a => some (a, LAct.pure)) } =
      some (.ok (),
        { (mkState false false : MState V) with
          listeners := pres.map (fun a => some (a, LAct.pure)) ++
            [some (b, .reDispatchCatch w)] ++ posts.map (fun a => some (a, LAct.pure)),
          dispatchCount := 1,
          invoked := pres.map (fun a => (a, v)) ++ [(b, v)] ++ posts.map (fun a => (a, v)),
          caught := [.reentrancy] }) := by
  rw [show pres.length + posts.length + 4 = (pres.length + posts.length + 3) + 1 by omega]
  rw [dispatchF_run (pres.length + posts.length + 3) v
    { (mkState false false : MState V) with
      listeners := pres.map (fun a => some (a, LAct.pure)) ++
        [some (b, .reDispatchCatch w)] ++ posts.map (fun a => some (a, LAct.pure)) } rfl rfl]
  simp only [mkState]
  rw [loopF_reDispatch_mid pres posts b w v 0
    { unique := false, listenAfterUniqueDispatchedError := false,
      listeners := pres.map (fun a => some (a, LAct.pure)) ++
        [some (b, .reDispatchCatch w)] ++ posts.map (fun a => some (a, LAct.pure)),
      unsubscribeCount := 0, clearCount := 0, dispatchCount := 0 + 1,
      dispatching := true, invoked := [], caught := [] } rfl (by simp)]
  simp [clearIfMax_zero, clearIfMaxUnsubscribeCountIsReached, maxUnsubscribeCount]

/-- Running the loop when the first listener registers a fresh listener
on the same (non-unique) emitter: the loop re-reads the registry length
each iteration, so after the `posts` plain listeners it also reaches and
invokes the newly appended listener, in the same cycle. -/
theorem loopF_listenNew_head (posts : List Nat) (a j : Nat) (v : V) (st : MState V)
    (hq : isUniqueAndDone st = false)
    (h : st.listeners = some (a, .listenNew j) :: posts.map (fun x => some (x, LAct.pure))) :
    loopF (posts.length + 3) v 0 st =
      some (.ok (),
        { st with
          listeners := st.listeners ++ [some (j, .pure)],
          invoked := st.invoked ++ ((a, v) :: (posts.map (fun x => (x, v)) ++ [(j, v)])) }) := by
  have hlen0 : 0 < st.listeners.length := by rw [h]; simp
  have hget0 : st.listeners.get ⟨0, hlen0⟩ = some (a, .listenNew j) :=
    get_of_drop_cons hlen0 (by rw [List.drop_zero, h])
  rw [show posts.length + 3 = (posts.length + 2) + 1 by omega]
  rw [loopF_some_slot (posts.length + 2) v 0 st a (.listenNew j) hlen0 hget0]
  rw [show posts.length + 2 = (posts.length + 1) + 1 by omega]
  rw [invokeF_listenNew (posts.length + 1) a j v st hq]
  show loopF ((posts.length + 1) + 1) v (0 + 1)
      { st with invoked := st.invoked ++ [(a, v)],
                listeners := st.listeners ++ [some (j, .pure)] } = _
  rw [show (posts.length + 1) + 1 = (posts ++ [j]).length + (0 + 1) from by simp]
  rw [loopF_pure_tail (posts ++ [j]) 0 v (0 + 1)
    { st with invoked := st.invoked ++ [(a, v)],
              listeners := st.listeners ++ [some (j, .pure)] }
    (by
      show (st.listeners ++ [some (j, LAct.pure)]).drop (0 + 1) =
        (posts ++ [j]).map (fun x => some (x, LAct.pure))
      rw [h]
      simp)]
  simp

/-- Claim C10.  When the first listener of a dispatch cycle registers a
fresh listener on the same (non-unique) emitter during its own
invocation, the newly registered listener is invoked in that same cycle
with the same value, after all previously registered listeners: the loop
re-reads the registry length on every iteration. -/
theorem C10_listener_registered_during_dispatch_same_cycle (v : V) (a j : Nat) (posts : List Nat) :
    dispatchF (posts.length + 4) v
        { (mkState false false : MState V) with
          listeners := some (a, .listenNew j) :: posts.map (fun x => some (x, LAct.pure)) } =
      some (.ok (),
        { (mkState false false : MState V) with
          listeners := (some (a, .listenNew j) :: posts.map (fun x => some (x, LAct.pure)))
            ++ [some (j, .pure)],
          dispatchCount := 1,
          invoked := (a, v) :: (posts.map (fun x => (x, v)) ++ [(j, v)]) }) := by
  rw [show posts.length + 4 = (posts.length + 3) + 1 by omega]
  rw [dispatchF_run (posts.length + 3) v
    { (mkState false false : MState V) with
      listeners := some (a, .listenNew j) :: posts.map (fun x => some (x, LAct.pure)) } rfl rfl]
  simp only [mkState]
  rw [loopF_listenNew_head posts a j v
    { unique := false, listenAfterUniqueDispatchedError := false,
      listeners := some (a, .listenNew j) :: posts.map (fun x => some (x, LAct.pure)),
      unsubscribeCount := 0, clearCount := 0, dispatchCount := 0 + 1,
      dispatching := true, invoked := [], caught := [] } rfl rfl]
  simp [clearIfMax_zero, clearIfMaxUnsubscribeCountIsReached, maxUnsubscribeCount]



/-- Claim C1 (the code contradicts it).  The undo handle does tombstone
the slot, but the source never increments `#unsubscribeCount` — the field
is initialised to 0 and only ever reset to 0 in `#clear`, contradicting
its own doc comment ("the number of unsubscribed, but not cleared,
listeners").  Hence: across EVERY interaction history on a default
emitter, `unsubscribeCount` stays 0 and `#clear` never runs (`clearCount`
stays 0); and after `n` register/unregister rounds all `n` tombstoned
slots are still physically present — also at the claimed threshold 255,
where the claim says compaction must have removed them. -/
theorem C1_unsubscribeCount_never_incremented_no_compaction :
    (∀ (A : Type) (ops : List (Op A)),
      (runOps (initWorld false false) ops).st.unsubscribeCount = 0 ∧
      (runOps (initWorld false false) ops).st.clearCount = 0) ∧
    (∀ (A : Type) (n : Nat),
      churn n = { (mkState false false : MState A) with listeners := List.replicate n none }) ∧
    (churn 255 : MState Nat).listeners = List.replicate 255 none ∧
    (churn 255 : MState Nat).unsubscribeCount = 0 ∧
    (churn 255 : MState Nat).clearCount = 0 := by
  refine ⟨?_, ?_, ?_, ?_, ?_⟩
  · intro A ops
    exact ⟨(runOps_default_inv ops).2.1, (runOps_default_inv ops).2.2⟩
  · intro A n
    exact churn_eq n
  · rw [churn_eq 255]
  · rw [churn_eq 255]; rfl
  · rw [churn_eq 255]; rfl

/-- An active slot holding the listener with identity `lid`. -/
def activeId (lid : Nat) (s : Slot V) : Bool :=
  match s with
  | some (id, _) => id == lid
  | none => false

/-- A slot whose listener body would register a new listener with
identity `lid` when invoked. -/
def mentionsId (lid : Nat) (s : Slot V) : Bool :=
  match s with
  | some (_, .listenNew j) => j == lid
  | _ => false

/-- Membership characterised through positions. -/
theorem mem_iff_getElem? {α : Type} (l : List α) (x : α) :
    x ∈ l ↔ ∃ k : Nat, l[k]? = some x := by
  constructor
  · intro h
    obtain ⟨k, hk, he⟩ := List.mem_iff_getElem.mp h
    exact ⟨k, by rw [List.getElem?_eq_getElem hk]; exact congrArg some he⟩
  · rintro ⟨k, hk⟩
    have hlt : k < l.length := by
      by_contra hc
      rw [List.getElem?_eq_none (by omega)] at hk
      cases hk
    exact List.mem_iff_getElem.mpr ⟨k, hlt,
      by rw [List.getElem?_eq_getElem hlt] at hk; exact Option.some_injective _ hk⟩

/-- The compaction check can only remove slots, never add or change. -/
theorem clearIfMax_listeners_subset (st : MState V) (s : Slot V)
    (h : s ∈ (clearIfMaxUnsubscribeCountIsReached st).listeners) : s ∈ st.listeners := by
  rw [clearIfMaxUnsubscribeCountIsReached] at h
  split at h
  · exact List.mem_of_mem_filter h
  · exact h

/-- Unfolds one undo invocation when the handle is armed and no clear
happened since registration. -/
theorem runUndo_cc_match_general (u : Undo) (st : MState V)
    (hix : (u.index != -1) = true) (hcc : u.clearCount = st.clearCount) :
    runUndo u st = ({ u with index := -1 },
      clearIfMaxUnsubscribeCountIsReached
        { st with listeners := setSlot u.index none st.listeners }) := by
  have hcc' : (u.clearCount != st.clearCount) = false := by simp [hcc]
  simp only [runUndo, hix, if_true, hcc', Bool.false_eq_true, if_false]

/-- Invoking the undo handle whose captured index still points at its own
slot (and whose listener identity occurs nowhere else) leaves the
listener with no active slot: it is tombstoned. -/
theorem runUndo_deactivates (u : Undo) (st : MState V) (act : LAct V)
    (hcc : u.clearCount = st.clearCount) (hix : 0 ≤ u.index)
    (hslot : st.listeners[u.index.toNat]? = some (some (u.lid, act)))
    (honce : ∀ k p, k ≠ u.index.toNat → st.listeners[k]? = some (some p) → p.1 ≠ u.lid) :
    ∀ s ∈ (runUndo u st).2.listeners, activeId u.lid s = false := by
  have hlt : u.index.toNat < st.listeners.length := by
    by_contra hc
    rw [List.getElem?_eq_none (by omega)] at hslot
    cases hslot
  have hix' : (u.index != -1) = true := by
    simp only [bne_iff_ne]
    omega
  rw [runUndo_cc_match_general u st hix' hcc]
  intro s hs
  have hs' := clearIfMax_listeners_subset _ s hs
  show activeId u.lid s = false
  have hset : setSlot u.index none st.listeners = st.listeners.set u.index.toNat none := by
    rw [setSlot, if_neg (by omega)]
  rw [hset] at hs'
  obtain ⟨k, hk⟩ := (mem_iff_getElem? _ s).mp hs'
  rw [List.getElem?_set] at hk
  by_cases hkx : u.index.toNat = k
  · rw [if_pos hkx, if_pos hlt] at hk
    have : s = none := (Option.some_injective _ hk).symm
    rw [this]; rfl
  · rw [if_neg hkx] at hk
    rcases s with _ | p
    · rfl
    · have := honce k p (fun he => hkx he.symm) hk
      simp [activeId, this]




/-- A listener identity that has no active slot and that no listener body
would register is never invoked during the listener loop. -/
theorem loopF_not_invoked (fuel : Nat) (v : V) (i : Nat) (st : MState V) (lid : Nat)
    (r : Except EmError Unit) (st' : MState V)
    (hd : st.dispatching = true)
    (hact : ∀ s ∈ st.listeners, activeId lid s = false ∧ mentionsId lid s = false)
    (heq : loopF fuel v i st = some (r, st')) :
    ∀ x, (lid, x) ∈ st'.invoked ↔ (lid, x) ∈ st.invoked := by
  induction fuel generalizing i st with
  | zero => cases heq
  | succ fuel ih =>
    by_cases h : i < st.listeners.length
    · rcases hsl : st.listeners.get ⟨i, h⟩ with _ | ⟨id, act⟩
      · rw [loopF_none_slot fuel v i st h hsl] at heq
        exact ih (i + 1) st hd hact heq
      · have hmem : (some (id, act) : Slot V) ∈ st.listeners := by
          rw [← hsl]; exact st.listeners.get_mem _ h
        have hidne : id ≠ lid := by
          have := (hact _ hmem).1
          simpa [activeId] using this
        rw [loopF_some_slot fuel v i st id act h hsl] at heq
        have hstep : ∀ x, (lid, x) ∈ st.invoked ++ [(id, v)] ↔ (lid, x) ∈ st.invoked := by
          intro x
          rw [List.mem_append]
          constructor
          · rintro (hin | hin)
            · exact hin
            · rw [List.mem_singleton, Prod.mk.injEq] at hin
              exact absurd hin.1.symm hidne
          · exact fun hh => Or.inl hh
        rcases fuel with _ | fuel
        · exact absurd heq (by cases act <;> simp [invokeF])
        cases act with
        | pure =>
          rw [invokeF_pure fuel id v st] at heq
          intro x
          rw [ih (i + 1) ({ st with invoked := st.invoked ++ [(id, v)] }) hd hact heq x]
          exact hstep x
        | throwL tag =>
          rw [invokeF_throwL fuel id tag v st] at heq
          simp only [Option.some.injEq, Prod.mk.injEq] at heq
          rw [← heq.2]
          exact hstep
        | reDispatchCatch w =>
          rcases fuel with _ | fuel
          · exact absurd heq (by simp [invokeF, dispatchF])
          · rw [invokeF_reDispatchCatch fuel id w v st hd] at heq
            intro x
            rw [ih (i + 1) ({ st with invoked := st.invoked ++ [(id, v)], caught := st.caught ++ [.reentrancy] }) hd hact heq x]
            exact hstep x
        | listenNew j =>
          have hjne : j ≠ lid := by
            have := (hact _ hmem).2
            simpa [mentionsId] using this
          rcases hu : isUniqueAndDone st with _ | _
          · rw [invokeF_listenNew fuel id j v st hu] at heq
            have hact' : ∀ s ∈ ({ st with invoked := st.invoked ++ [(id, v)], listeners := st.listeners ++ [some (j, LAct.pure)] } : MState V).listeners, activeId lid s = false ∧ mentionsId lid s = false := by
              intro s hs
              rcases List.mem_append.mp hs with hs' | hs'
              · exact hact s hs'
              · rw [List.mem_singleton.mp hs']
                exact ⟨by simpa [activeId] using hjne, rfl⟩
            intro x
            rw [ih (i + 1) ({ st with invoked := st.invoked ++ [(id, v)], listeners := st.listeners ++ [some (j, LAct.pure)] }) hd hact' heq x]
            exact hstep x
          · rcases he : st.listenAfterUniqueDispatchedError with _ | _
            · rw [invokeF_listenNew_uniqueIgnore fuel id j v st hu he] at heq
              intro x
              rw [ih (i + 1) ({ st with invoked := st.invoked ++ [(id, v)] }) hd hact heq x]
              exact hstep x
            · rw [invokeF_listenNew_uniqueErr fuel id j v st hu he] at heq
              simp only [Option.some.injEq, Prod.mk.injEq] at heq
              rw [← heq.2]
              exact hstep
    · rw [loopF_done fuel v i st (by omega)] at heq
      simp only [Option.some.injEq, Prod.mk.injEq] at heq
      rw [← heq.2]
      intro x
      exact Iff.rfl

/-- A listener identity that has no active slot and that no listener body
would register is never invoked by a dispatch call, whatever its
outcome. -/
theorem dispatchF_not_invoked (fuel : Nat) (v : V) (st : MState V) (lid : Nat)
    (r : Except EmError Unit) (st' : MState V)
    (hact : ∀ s ∈ st.listeners, activeId lid s = false ∧ mentionsId lid s = false)
    (heq : dispatchF fuel v st = some (r, st')) :
    ∀ x, (lid, x) ∈ st'.invoked ↔ (lid, x) ∈ st.invoked := by
  rcases fuel with _ | fuel
  · cases heq
  rcases hd : st.dispatching with _ | _
  rotate_left
  · rw [dispatchF_of_dispatching fuel v st hd] at heq
    simp only [Option.some.injEq, Prod.mk.injEq] at heq
    rw [← heq.2]
    intro x; exact Iff.rfl
  rcases hq : isUniqueAndDone st with _ | _
  rotate_left
  · rw [dispatchF_of_uniqueAndDone fuel v st hd hq] at heq
    simp only [Option.some.injEq, Prod.mk.injEq] at heq
    rw [← heq.2]
    intro x; exact Iff.rfl
  rw [dispatchF_run fuel v st hd hq] at heq
  rcases hl : loopF fuel v 0
      { st with dispatching := true, dispatchCount := st.dispatchCount + 1 } with _ | ⟨r2, st2⟩
  · rw [hl] at heq; cases heq
  rw [hl] at heq
  have hloop := loopF_not_invoked fuel v 0
    { st with dispatching := true, dispatchCount := st.dispatchCount + 1 } lid r2 st2
    rfl hact hl
  rcases r2 with e | u
  · simp only [Option.some.injEq, Prod.mk.injEq] at heq
    rw [← heq.2]
    exact hloop
  · simp only [Option.some.injEq, Prod.mk.injEq] at heq
    obtain ⟨-, hst'⟩ := heq
    rw [← hst']
    intro x
    rw [show ({ (if st2.unique then { st2 with clearCount := 1, listeners := [] }
        else clearIfMaxUnsubscribeCountIsReached st2) with
        dispatching := false } : MState V).invoked = st2.invoked from by
      by_cases hu2 : st2.unique = true
      · simp [hu2]
      · simp only [if_neg hu2]
        exact (clearIfMax_proj st2).2.2.2.1]
    exact hloop x




/-- Claim C9.  First: invoking an unregister handle twice has the same
observable effect as invoking it once — the second invocation changes
neither the handle nor the emitter, because the handle disarms itself
(`index = -1`) on first invocation.  Second: invoking the handle
tombstones its listener (whose identity then occurs in no active slot),
provided the captured index still tracks the slot and the identity is
registered only once.  Third: a listener identity with no active slot
(and which no listener body would register) is never invoked by any
subsequent dispatch, whatever that dispatch does. -/
theorem C9_undo_idempotent_tombstone_never_invoked :
    (∀ (u : Undo) (st : MState V),
        runUndo (runUndo u st).1 (runUndo u st).2 = runUndo u st) ∧
    (∀ (u : Undo) (st : MState V) (act : LAct V),
        u.clearCount = st.clearCount → 0 ≤ u.index →
        st.listeners[u.index.toNat]? = some (some (u.lid, act)) →
        (∀ k p, k ≠ u.index.toNat → st.listeners[k]? = some (some p) → p.1 ≠ u.lid) →
        ∀ s ∈ (runUndo u st).2.listeners, activeId u.lid s = false) ∧
    (∀ (fuel : Nat) (v : V) (st : MState V) (lid : Nat)
        (r : Except EmError Unit) (st' : MState V),
        (∀ s ∈ st.listeners, activeId lid s = false ∧ mentionsId lid s = false) →
        dispatchF fuel v st = some (r, st') →
        ∀ x, (lid, x) ∈ st'.invoked ↔ (lid, x) ∈ st.invoked) := by
  refine ⟨?_, ?_, ?_⟩
  · intro u st
    by_cases hix : (u.index != -1) = true
    · have h1 : (runUndo u st).1.index = -1 := by
        simp [runUndo, hix]
      rw [runUndo, if_neg (by simp [h1])]
    · have h0 : runUndo u st = (u, st) := by
        rw [runUndo, if_neg (by simpa using hix)]
      rw [h0]
      show runUndo u st = (u, st)
      exact h0
  · intro u st act hcc hix hslot honce
    exact runUndo_deactivates u st act hcc hix hslot honce
  · intro fuel v st lid r st' hact heq
    exact dispatchF_not_invoked fuel v st lid r st' hact heq

/-- Witness for C9, at a concrete emitter with one registered listener
(identity 7) and its undo handle: the second part applied to the
tombstone left in the registry, the third part applied to a dispatch on
that emitter for the unregistered identity 9, and the first part applied
to the double undo. -/
theorem C9_witness :
    activeId 7 (none : Slot Nat) = false ∧
    (((9 : Nat), (0 : Nat)) ∈
        ({ (mkState false false : MState Nat) with
          listeners := [some (7, LAct.pure)], dispatchCount := 1,
          invoked := [(7, 0)] }).invoked ↔
      ((9 : Nat), (0 : Nat)) ∈
        ({ (mkState false false : MState Nat) with
          listeners := [some (7, LAct.pure)] }).invoked) ∧
    runUndo (runUndo ⟨0, 0, 7⟩
        { (mkState false false : MState Nat) with listeners := [some (7, LAct.pure)] }).1
      (runUndo ⟨0, 0, 7⟩
        { (mkState false false : MState Nat) with listeners := [some (7, LAct.pure)] }).2 =
      runUndo ⟨0, 0, 7⟩
        { (mkState false false : MState Nat) with listeners := [some (7, LAct.pure)] } := by
  refine ⟨?_, ?_, ?_⟩
  · exact C9_undo_idempotent_tombstone_never_invoked.2.1 ⟨0, 0, 7⟩
      { (mkState false false : MState Nat) with listeners := [some (7, LAct.pure)] }
      LAct.pure rfl (by decide) rfl
      (by
        intro k p hk hp
        rcases k with _ | k
        · exact absurd rfl hk
        · rcases k with _ | k <;> simp at hp)
      none (by rw [show (runUndo ⟨0, 0, 7⟩
        { (mkState false false : MState Nat) with
          listeners := [some (7, LAct.pure)] }).2.listeners = [none] from rfl]; exact List.mem_singleton.mpr rfl)
  · exact C9_undo_idempotent_tombstone_never_invoked.2.2 3 0
      { (mkState false false : MState Nat) with listeners := [some (7, LAct.pure)] } 9
      (.ok ())
      { (mkState false false : MState Nat) with
        listeners := [some (7, LAct.pure)], dispatchCount := 1, invoked := [(7, 0)] }
      (by decide) rfl 0
  · exact C9_undo_idempotent_tombstone_never_invoked.1 ⟨0, 0, 7⟩
      { (mkState false false : MState Nat) with listeners := [some (7, LAct.pure)] }




/-!
The asynchronous emitter (src/unnamed/part_000).  Its `#dispatch` invokes
every listener synchronously, collecting the returned promises (a `void`
return collects nothing), then — after the unique/compaction bookkeeping
and clearing the reentrancy flag — awaits `Promise.allSettled` of the
collected promises and aggregates the rejections.  An async listener body
is deep-embedded as data: it either returns `undefined`, returns a
promise that eventually settles with a given result, or throws
synchronously.  Since none of these behaviours touches the emitter, the
registry cannot change during the async listener loop, and the loop
(lines 95-100) is embedded as structural recursion over the remaining
slots.  `Promise.allSettled` is embedded by aggregating over the list of
settled results of the collected promises, in collection order — the
completion of the dispatch is, by construction, a function of ALL settled
results. -/

/-- Behaviour of an asynchronous listener body: return `undefined`,
return a promise settling with the given result (`Except.error e` is a
rejection with reason `e`), or throw synchronously with reason `e`. -/
inductive AAct where
  | retVoid
  | retPromise (res : Except Nat Unit)
  | syncThrow (e : Nat)
  deriving Repr

/-- A slot of the async registry: `none` is a tombstone (`noop`). -/
abbrev ASlot := Option (Nat × AAct)

/-- Failure of an async dispatch call, as observed by the caller:
the guard errors, a rejection carrying a bare listener-failure reason
(either a synchronous throw or the single-failure case of line 122), or
an `AggregateError` wrapping two or more reasons. -/
inductive AErr where
  | reentrancy
  | alreadyEmitted
  | reason (e : Nat)
  | aggregate (es : List Nat)
  deriving DecidableEq, Repr

/-- State of one `AsyncEventEmitter`, plus the invocation log. -/
structure AState (V : Type) where
  unique : Bool
  listeners : List ASlot
  unsubscribeCount : Nat
  clearCount : Nat
  dispatchCount : Nat
  dispatching : Bool
  invoked : List (Nat × V)
  deriving Repr

/-- A fresh async emitter (constructor, lines 39-59). -/
def mkAState (unique : Bool) : AState V :=
  { unique := unique, listeners := [], unsubscribeCount := 0, clearCount := 0,
    dispatchCount := 0, dispatching := false, invoked := [] }

/-- Embeds the listener loop of the async `#dispatch` (lines 95-100):
each slot is invoked; a promise result is pushed onto `promises`; a
`void` result (`result !== undefined`) is not; a synchronous throw
escapes the async function body — there is no try/catch — carrying the
invocation log so far and leaving the remaining slots uninvoked. -/
def aloop (v : V) : List ASlot → List (Nat × V) → List (Except Nat Unit) →
    (List (Nat × V) × List (Except Nat Unit) × Option Nat)
  | [], inv, proms => (inv, proms, none)
  | none :: rest, inv, proms => aloop v rest inv proms
  | some (id, act) :: rest, inv, proms =>
    match act with
    | .retVoid => aloop v rest (inv ++ [(id, v)]) proms
    | .retPromise res => aloop v rest (inv ++ [(id, v)]) (proms ++ [res])
    | .syncThrow e => (inv ++ [(id, v)], proms, some e)

/-- Embeds lines 113-123: the rejection reasons of the settled results,
in collection (= invocation) order. -/
def collectErrors (results : List (Except Nat Unit)) : List Nat :=
  results.filterMap (fun r => match r with | .error e => some e | .ok _ => none)

/-- Embeds the tail of the async `#dispatch` (lines 111-123): await all
settled results, then throw nothing, the single reason unwrapped, or an
`AggregateError` carrying every reason in order. -/
def settleOutcome (results : List (Except Nat Unit)) : Except AErr Unit :=
  match collectErrors results with
  | [] => .ok ()
  | [e] => .error (.reason e)
  | es => .error (.aggregate es)

/-- Embeds the async `#clear` (lines 71-79). -/
def aclear (st : AState V) : AState V :=
  { st with unsubscribeCount := 0, clearCount := st.clearCount + 1,
            listeners := st.listeners.filter (fun s => s.isSome) }

/-- Embeds the async `#clearIfMaxUnsubscribeCountIsReached` (lines 65-69). -/
def aclearIfMax (st : AState V) : AState V :=
  if maxUnsubscribeCount ≤ st.unsubscribeCount then aclear st else st

/-- Embeds the async `#dispatch` (lines 81-124).  A synchronous listener
throw rejects the whole call immediately: the remaining listeners are not
invoked, no promise is awaited, and (as in the sync emitter) the
`dispatching` flag is never cleared.  Otherwise the bookkeeping runs, the
flag is cleared, and the call settles with the aggregation of all settled
listener results.  The sequential field mutations of the source are
written as one record expression per outcome; the final value of every
field is the same (in particular `dispatching` is set at line 90 and, on
the non-throwing path, cleared again at line 109 before the await). -/
def adispatch (v : V) (st : AState V) : Except AErr Unit × AState V :=
  if st.dispatching then (.error .reentrancy, st)
  else if st.unique && st.dispatchCount != 0 then (.error .alreadyEmitted, st)
  else
    match aloop v st.listeners st.invoked [] with
    | (inv, _, some e) =>
      (.error (.reason e),
        { st with dispatchCount := st.dispatchCount + 1, dispatching := true,
                  invoked := inv })
    | (inv, proms, none) =>
      (settleOutcome proms,
        { (if st.unique then
            { st with dispatchCount := st.dispatchCount + 1, invoked := inv,
                      clearCount := 1, listeners := [] }
          else aclearIfMax
            { st with dispatchCount := st.dispatchCount + 1, invoked := inv,
                      dispatching := true }) with dispatching := false })

/-- Detects a listener body that throws synchronously when invoked. -/
def isSyncThrow (s : ASlot) : Bool :=
  match s with
  | some (_, .syncThrow _) => true
  | _ => false

/-- The invocation-log entries the loop produces for a block of slots. -/
def slotInvs (v : V) (slots : List ASlot) : List (Nat × V) :=
  slots.filterMap (fun s => s.map (fun p => (p.1, v)))

/-- The promises the loop collects for a block of slots. -/
def slotProms (slots : List ASlot) : List (Except Nat Unit) :=
  slots.filterMap (fun s =>
    match s with
    | some (_, AAct.retPromise r) => some r
    | _ => none)

/-- The rejection reasons among the promises returned by a block of
slots, in slot order. -/
def rejectionReasons (slots : List ASlot) : List Nat :=
  slots.filterMap (fun s =>
    match s with
    | some (_, AAct.retPromise (.error e)) => some e
    | _ => none)

/-- Running the async listener loop over a block of slots none of which
throws synchronously: each active listener is invoked, its promise (if
any) collected, and the loop continues with the rest. -/
theorem aloop_append (v : V) (slotsA slotsB : List ASlot)
    (inv : List (Nat × V)) (proms : List (Except Nat Unit))
    (h : ∀ s ∈ slotsA, isSyncThrow s = false) :
    aloop v (slotsA ++ slotsB) inv proms =
      aloop v slotsB (inv ++ slotInvs v slotsA) (proms ++ slotProms slotsA) := by
  induction slotsA generalizing inv proms with
  | nil => simp [slotInvs, slotProms]
  | cons s rest ih =>
    have hs : isSyncThrow s = false := h s (List.mem_cons_self _ _)
    have hrest : ∀ s ∈ rest, isSyncThrow s = false :=
      fun s hsm => h s (List.mem_cons_of_mem _ hsm)
    rcases s with _ | ⟨id, act⟩
    · rw [show ((none :: rest : List ASlot) ++ slotsB) = none :: (rest ++ slotsB) from rfl]
      rw [show aloop v (none :: (rest ++ slotsB)) inv proms = aloop v (rest ++ slotsB) inv proms
        from rfl]
      rw [ih inv proms hrest]
      simp [slotInvs, slotProms]
    · cases act with
      | retVoid =>
        rw [show ((some (id, AAct.retVoid) :: rest : List ASlot) ++ slotsB)
          = some (id, AAct.retVoid) :: (rest ++ slotsB) from rfl]
        rw [show aloop v (some (id, AAct.retVoid) :: (rest ++ slotsB)) inv proms
          = aloop v (rest ++ slotsB) (inv ++ [(id, v)]) proms from rfl]
        rw [ih (inv ++ [(id, v)]) proms hrest]
        simp [slotInvs, slotProms]
      | retPromise res =>
        rw [show ((some (id, AAct.retPromise res) :: rest : List ASlot) ++ slotsB)
          = some (id, AAct.retPromise res) :: (rest ++ slotsB) from rfl]
        rw [show aloop v (some (id, AAct.retPromise res) :: (rest ++ slotsB)) inv proms
          = aloop v (rest ++ slotsB) (inv ++ [(id, v)]) (proms ++ [res]) from rfl]
        rw [ih (inv ++ [(id, v)]) (proms ++ [res]) hrest]
        simp [slotInvs, slotProms]
      | syncThrow e =>
        exact absurd hs (by simp [isSyncThrow])

/-- Special case: a throw-free registry is walked to the end. -/
theorem aloop_no_throw (v : V) (slots : List ASlot)
    (inv : List (Nat × V)) (proms : List (Except Nat Unit))
    (h : ∀ s ∈ slots, isSyncThrow s = false) :
    aloop v slots inv proms = (inv ++ slotInvs v slots, proms ++ slotProms slots, none) := by
  rw [show slots = slots ++ [] by simp] at h ⊢
  rw [aloop_append v slots [] inv proms (by simpa using h)]
  simp [aloop]

/-- The rejections among the collected promises are exactly the
rejection reasons of the registry, in order. -/
theorem collectErrors_slotProms (slots : List ASlot) :
    collectErrors (slotProms slots) = rejectionReasons slots := by
  induction slots with
  | nil => rfl
  | cons s rest ih =>
    rcases s with _ | ⟨id, act⟩
    · simpa [slotProms, rejectionReasons, List.filterMap_cons, collectErrors] using ih
    · cases act with
      | retVoid =>
        simpa [slotProms, rejectionReasons, List.filterMap_cons, collectErrors] using ih
      | retPromise res =>
        rcases res with e | u <;>
          simpa [slotProms, rejectionReasons, List.filterMap_cons, collectErrors] using ih
      | syncThrow e =>
        simpa [slotProms, rejectionReasons, List.filterMap_cons, collectErrors] using ih




/-- Evaluation of the whole async dispatch when the guards pass and no
listener throws synchronously: every active listener is invoked, the
bookkeeping runs, the flag is cleared, and the call settles with the
aggregation of the collected results. -/
theorem adispatch_no_throw (st : AState V) (v : V)
    (h1 : st.dispatching = false) (h2 : (st.unique && st.dispatchCount != 0) = false)
    (h3 : ∀ s ∈ st.listeners, isSyncThrow s = false) :
    adispatch v st =
      (settleOutcome (slotProms st.listeners),
        { (if st.unique then
            { st with dispatchCount := st.dispatchCount + 1,
                      invoked := st.invoked ++ slotInvs v st.listeners,
                      clearCount := 1, listeners := [] }
          else aclearIfMax
            { st with dispatchCount := st.dispatchCount + 1,
                      invoked := st.invoked ++ slotInvs v st.listeners,
                      dispatching := true }) with dispatching := false }) := by
  rw [adispatch, if_neg (by simp [h1]), if_neg (by simp [h2])]
  rw [aloop_no_throw v st.listeners st.invoked [] h3]
  show (settleOutcome ([] ++ slotProms st.listeners), _) = _
  rw [List.nil_append]

/-- Claim C5.  When the guards pass and no listener throws
synchronously, the async dispatch call settles as a function of ALL the
collected results (the embedding of `Promise.allSettled`): if no listener
result is a rejection the call completes normally; if exactly one is, the
call rejects with that reason unwrapped (not wrapped in an aggregate of
size one); if two or more are, the call rejects with an aggregate
carrying exactly the rejection reasons in listener-invocation order. -/
theorem C5_async_aggregation (st : AState V) (v : V)
    (h1 : st.dispatching = false) (h2 : (st.unique && st.dispatchCount != 0) = false)
    (h3 : ∀ s ∈ st.listeners, isSyncThrow s = false) :
    (rejectionReasons st.listeners = [] → (adispatch v st).1 = .ok ()) ∧
    (∀ e, rejectionReasons st.listeners = [e] → (adispatch v st).1 = .error (.reason e)) ∧
    (2 ≤ (rejectionReasons st.listeners).length →
      (adispatch v st).1 = .error (.aggregate (rejectionReasons st.listeners))) := by
  have key : (adispatch v st).1 = settleOutcome (slotProms st.listeners) := by
    rw [adispatch_no_throw st v h1 h2 h3]
  refine ⟨?_, ?_, ?_⟩
  · intro hre
    rw [key, settleOutcome, collectErrors_slotProms, hre]
  · intro e hre
    rw [key, settleOutcome, collectErrors_slotProms, hre]
  · intro hlen
    rw [key, settleOutcome, collectErrors_slotProms]
    rcases hre : rejectionReasons st.listeners with _ | ⟨e, _ | ⟨f, tl⟩⟩
    · rw [hre] at hlen; simp at hlen
    · rw [hre] at hlen; simp at hlen
    · rfl

/-- Witness for C5, on the three-listener example of the specification:
listeners 1, 2, 3 where 2 rejects with reason 21 and 3 rejects with
reason 31 — the dispatch rejects with the aggregate [21, 31]; and on the
single-failure variant — the dispatch rejects with the bare reason 21. -/
theorem C5_witness :
    (adispatch (0 : Nat)
      { (mkAState false : AState Nat) with
        listeners := [some (1, .retPromise (.ok ())),
          some (2, .retPromise (.error 21)), some (3, .retPromise (.error 31))] }).1 =
      .error (.aggregate [21, 31]) ∧
    (adispatch (0 : Nat)
      { (mkAState false : AState Nat) with
        listeners := [some (1, .retPromise (.ok ())),
          some (2, .retPromise (.error 21)), some (3, .retPromise (.ok ()))] }).1 =
      .error (.reason 21) := by
  constructor
  · exact (C5_async_aggregation
      { (mkAState false : AState Nat) with
        listeners := [some (1, .retPromise (.ok ())),
          some (2, .retPromise (.error 21)), some (3, .retPromise (.error 31))] } 0
      rfl rfl (by intro s hs; fin_cases hs <;> rfl)).2.2 (by simp [rejectionReasons])
  · exact (C5_async_aggregation
      { (mkAState false : AState Nat) with
        listeners := [some (1, .retPromise (.ok ())),
          some (2, .retPromise (.error 21)), some (3, .retPromise (.ok ()))] } 0
      rfl rfl (by intro s hs; fin_cases hs <;> rfl)).2.1 21 (by simp [rejectionReasons])




/-- The async compaction check changes neither the invocation log nor the
reentrancy flag. -/
theorem aclearIfMax_proj (st : AState V) :
    (aclearIfMax st).invoked = st.invoked ∧ (aclearIfMax st).dispatching = st.dispatching := by
  rw [aclearIfMax]
  split <;> simp [aclear]

/-- Claim C2 (amended).  In the asynchronous dispatch, listener failures
delivered as REJECTED RESULTS are isolated: when no listener throws
synchronously, every active listener is invoked (however many results
are rejections) and the reentrancy flag is cleared before the results
are awaited.  But a listener that THROWS SYNCHRONOUSLY is not isolated:
the loop has no try/catch, so the throw aborts the loop — the listeners
after it are not invoked — and becomes the rejection of the dispatch
call, with the reentrancy flag left set. -/
theorem C2_sync_throw_not_isolated :
    (∀ (st : AState V) (v : V),
      st.dispatching = false → (st.unique && st.dispatchCount != 0) = false →
      (∀ s ∈ st.listeners, isSyncThrow s = false) →
      (adispatch v st).2.invoked = st.invoked ++ slotInvs v st.listeners ∧
      (adispatch v st).2.dispatching = false) ∧
    (∀ (st : AState V) (v : V) (A B : List ASlot) (id e : Nat),
      st.dispatching = false → (st.unique && st.dispatchCount != 0) = false →
      (∀ s ∈ A, isSyncThrow s = false) →
      st.listeners = A ++ some (id, .syncThrow e) :: B →
      adispatch v st = (.error (.reason e),
        { st with dispatchCount := st.dispatchCount + 1, dispatching := true,
                  invoked := st.invoked ++ slotInvs v A ++ [(id, v)] })) := by
  constructor
  · intro st v h1 h2 h3
    rw [adispatch_no_throw st v h1 h2 h3]
    by_cases hu : st.unique = true
    · simp only [if_pos hu]
      exact ⟨trivial, trivial⟩
    · simp only [if_neg hu]
      refine ⟨?_, trivial⟩
      show (aclearIfMax { st with dispatchCount := st.dispatchCount + 1, invoked := st.invoked ++ slotInvs v st.listeners, dispatching := true }).invoked = _
      rw [(aclearIfMax_proj _).1]
  · intro st v A B id e h1 h2 hA hlist
    rw [adispatch, if_neg (by simp [h1]), if_neg (by simp [h2]), hlist]
    rw [aloop_append v A (some (id, AAct.syncThrow e) :: B) st.invoked [] hA]
    rw [show aloop v (some (id, AAct.syncThrow e) :: B) (st.invoked ++ slotInvs v A) ([] ++ slotProms A) = ((st.invoked ++ slotInvs v A) ++ [(id, v)], [] ++ slotProms A, some e) from rfl]

/-- Claim C2, counterexample to the claim as stated: with listener 1
throwing synchronously and listener 2 after it, the dispatch call rejects
with reason 7 and the invocation log shows only listener 1 — listener 2
was never invoked, so it is NOT the case that every registered listener
is invoked when an earlier one throws synchronously. -/
theorem C2_counterexample :
    adispatch (0 : Nat)
      { (mkAState false : AState Nat) with
        listeners := [some (1, .syncThrow 7), some (2, .retVoid)] } =
      (.error (.reason 7),
        { (mkAState false : AState Nat) with
          listeners := [some (1, .syncThrow 7), some (2, .retVoid)],
          dispatchCount := 1, dispatching := true, invoked := [(1, 0)] }) ∧
    ((2 : Nat), (0 : Nat)) ∉ [((1 : Nat), (0 : Nat))] := by
  exact ⟨rfl, by decide⟩

/-- Witness for C2 (amended), at concrete inputs: the isolation part on a
registry whose middle listener rejects (all three listeners appear in the
invocation log), and the synchronous-throw part on the counterexample
registry. -/
theorem C2_witness :
    (adispatch (0 : Nat)
      { (mkAState false : AState Nat) with
        listeners := [some (1, .retPromise (.ok ())),
          some (2, .retPromise (.error 21)), some (3, .retVoid)] }).2.invoked =
      [] ++ slotInvs 0 [some (1, AAct.retPromise (.ok ())),
        some (2, AAct.retPromise (.error 21)), some (3, AAct.retVoid)] ∧
    adispatch (0 : Nat)
      { (mkAState false : AState Nat) with
        listeners := [some (1, .syncThrow 7), some (2, .retVoid)] } =
      (.error (.reason 7),
        { ({ (mkAState false : AState Nat) with
            listeners := [some (1, .syncThrow 7), some (2, .retVoid)] } : AState Nat) with
          dispatchCount := 0 + 1, dispatching := true,
          invoked := [] ++ slotInvs 0 [] ++ [(1, 0)] }) := by
  constructor
  · exact (C2_sync_throw_not_isolated.1
      { (mkAState false : AState Nat) with
        listeners := [some (1, .retPromise (.ok ())),
          some (2, .retPromise (.error 21)), some (3, .retVoid)] } 0
      rfl rfl (by intro s hs; fin_cases hs <;> rfl)).1
  · exact C2_sync_throw_not_isolated.2
      { (mkAState false : AState Nat) with
        listeners := [some (1, .syncThrow 7), some (2, .retVoid)] } 0
      [] [some (2, AAct.retVoid)] 1 7 rfl rfl (by intro s hs; cases hs) rfl




/-!
The lazy-sequence bridge: `toAsyncGenerator` (src/unnamed/part_002,
lines 200-275).  The bridge owns a queue of pending values with
expiration instants and at most one outstanding pending read.  Time is
modelled by an explicit `now : Nat` (`Date.now()`); an expiration of
`none` models `Number.POSITIVE_INFINITY`, and the configuration values
`bufferSize`/`windowTime` are `Option Nat` with `none` for their default
`Number.POSITIVE_INFINITY` (both are clamped by `Math.max(0, _)` at
lines 205-206, which a `Nat` needs not model).  Cancellation via an abort
signal is out of scope here. -/

/-- An entry of the pending-value queue (lines 208-211). -/
structure PendingValue (V : Type) where
  value : V
  expirationDate : Option Nat
  deriving DecidableEq, Repr

/-- The bridge state: the queue and whether a pull is suspended waiting
(`pendingRead !== undefined`). -/
structure GenState (V : Type) where
  values : List (PendingValue V)
  pendingRead : Bool
  deriving DecidableEq, Repr

/-- Embeds `values.length > bufferSize` (line 226) with a possibly
infinite bound. -/
def sizeExceeds (n : Nat) (bufferSize : Option Nat) : Bool :=
  match bufferSize with
  | some b => b < n
  | none => false

/-- Embeds `Date.now() + windowTime` (line 223). -/
def expAdd (now : Nat) (windowTime : Option Nat) : Option Nat :=
  match windowTime with
  | some w => some (now + w)
  | none => none

/-- Embeds `values[0].expirationDate < now` (line 251). -/
def isExpiredAt (now : Nat) (e : Option Nat) : Bool :=
  match e with
  | some d => d < now
  | none => false

/-- Embeds `bufferSize > 0` / `windowTime > 0` (line 220), where the
infinite default is positive. -/
def isPos (b : Option Nat) : Bool := b != some 0

/-- Embeds the dispatch-side listener of the bridge (lines 219-243).
Returns the updated state and how many times the suspended pull was
woken (`pendingRead.resolve()`). -/
def genListener (bufferSize windowTime : Option Nat) (now : Nat) (v : V)
    (st : GenState V) : GenState V × Nat :=
  let st1 :=
    if isPos bufferSize && isPos windowTime then
      { st with values :=
          if sizeExceeds (st.values ++ [({ value := v, expirationDate := expAdd now windowTime } : PendingValue V)]).length bufferSize
          then (st.values ++ [({ value := v, expirationDate := expAdd now windowTime } : PendingValue V)]).tail
          else st.values ++ [({ value := v, expirationDate := expAdd now windowTime } : PendingValue V)] }
    else
      if st.pendingRead then { st with values := [({ value := v, expirationDate := none } : PendingValue V)] }
      else st
  if st1.pendingRead then ({ st1 with pendingRead := false }, 1) else (st1, 0)

/-- Embeds the purge loop of the pull side (lines 250-253): shift while
the oldest entry is expired. -/
def purge (now : Nat) : List (PendingValue V) → List (PendingValue V)
  | [] => []
  | pv :: rest => if isExpiredAt now pv.expirationDate then purge now rest else pv :: rest

/-- Embeds one iteration of the pull loop (lines 246-273): purge, then
either yield the oldest remaining value (`values.shift()!.value`) or
suspend, creating the pending read. -/
def genPull (now : Nat) (st : GenState V) : Option V × GenState V :=
  match purge now st.values with
  | [] => (none, { values := [], pendingRead := true })
  | pv :: rest => (some pv.value, { st with values := rest })

/-- The purge loop drops exactly the longest expired prefix of the
queue: oldest-first, while expired. -/
theorem purge_eq_dropWhile (now : Nat) (l : List (PendingValue V)) :
    purge now l = l.dropWhile (fun pv => isExpiredAt now pv.expirationDate) := by
  induction l with
  | nil => rfl
  | cons pv rest ih =>
    rw [purge, List.dropWhile_cons]
    by_cases h : isExpiredAt now pv.expirationDate = true
    · rw [if_pos h, if_pos h, ih]
    · rw [if_neg h, if_neg h]




/-- Claim C7.  In the buffered regime (`bufferSize > 0` and
`windowTime > 0`): every dispatched value is enqueued at the back with
expiration instant `now + windowTime` and the oldest entry is evicted
exactly when the queue exceeds `bufferSize`; a pull first purges the
longest expired prefix (oldest-first, while expired) and returns the
oldest remaining entry if any; and in the concrete scenario
`bufferSize = 2`, `windowTime = 1000`, dispatching `a`, `b`, `c` in
quick succession (same instant) and pulling twice yields `b` then `c`. -/
theorem C7_buffered_bridge :
    (∀ (bufferSize windowTime : Option Nat) (now : Nat) (v : V) (st : GenState V),
      bufferSize ≠ some 0 → windowTime ≠ some 0 →
      (genListener bufferSize windowTime now v st).1.values =
        (if sizeExceeds (st.values ++
            [({ value := v, expirationDate := expAdd now windowTime } : PendingValue V)]).length
            bufferSize
         then (st.values ++
            [({ value := v, expirationDate := expAdd now windowTime } : PendingValue V)]).tail
         else st.values ++
            [({ value := v, expirationDate := expAdd now windowTime } : PendingValue V)])) ∧
    (∀ (now : Nat) (st : GenState V),
      (genPull now st).1 =
        ((st.values.dropWhile (fun pv => isExpiredAt now pv.expirationDate)).head?).map
          (fun pv => pv.value)) ∧
    (∀ a b c : V,
      genPull 500 ((genListener (some 2) (some 1000) 0 c
          ((genListener (some 2) (some 1000) 0 b
            ((genListener (some 2) (some 1000) 0 a ⟨[], false⟩).1)).1)).1) =
        (some b, ⟨[⟨c, some 1000⟩], false⟩) ∧
      genPull 500 (⟨[⟨c, some 1000⟩], false⟩ : GenState V) = (some c, ⟨[], false⟩)) := by
  refine ⟨?_, ?_, ?_⟩
  · intro bufferSize windowTime now v st hb hw
    have hpos : (isPos bufferSize && isPos windowTime) = true := by
      simp [isPos, bne_iff_ne, hb, hw]
    rw [genListener]
    simp only [hpos, if_true]
    by_cases hp : st.pendingRead = true
    · simp only [hp, if_true]
    · simp only [if_neg hp]
  · intro now st
    rw [genPull, purge_eq_dropWhile]
    rcases hdw : st.values.dropWhile (fun pv => isExpiredAt now pv.expirationDate) with _ | ⟨pv, rest⟩
    · rw [hdw]; rfl
    · rw [hdw]; rfl
  · intro a b c
    exact ⟨rfl, rfl⟩

/-- Witness for C7: its hypotheses discharged on the concrete scenario
state — enqueuing `c` at instant 0 into the queue holding `a` and `b`
(capacity 2) evicts `a`; and a pull at instant 500 returns `b`. -/
theorem C7_witness :
    (genListener (some 2) (some 1000) 0 (2 : Nat)
        ⟨[⟨0, some 1000⟩, ⟨1, some 1000⟩], false⟩).1.values =
      (if sizeExceeds ([({ value := 0, expirationDate := some 1000 } : PendingValue Nat),
          ⟨1, some 1000⟩] ++ [({ value := 2, expirationDate := expAdd 0 (some 1000) } : PendingValue Nat)]).length (some 2)
       then ([({ value := 0, expirationDate := some 1000 } : PendingValue Nat),
          ⟨1, some 1000⟩] ++ [({ value := 2, expirationDate := expAdd 0 (some 1000) } : PendingValue Nat)]).tail
       else [({ value := 0, expirationDate := some 1000 } : PendingValue Nat),
          ⟨1, some 1000⟩] ++ [({ value := 2, expirationDate := expAdd 0 (some 1000) } : PendingValue Nat)]) ∧
    (genPull 500 (⟨[⟨1, some 1000⟩, ⟨2, some 1000⟩], false⟩ : GenState Nat)).1 =
      ((([({ value := 1, expirationDate := some 1000 } : PendingValue Nat),
        ⟨2, some 1000⟩]).dropWhile (fun pv => isExpiredAt 500 pv.expirationDate)).head?).map
          (fun pv => pv.value) := by
  constructor
  · exact C7_buffered_bridge.1 (some 2) (some 1000) 0 2
      ⟨[⟨0, some 1000⟩, ⟨1, some 1000⟩], false⟩ (by decide) (by decide)
  · exact C7_buffered_bridge.2.1 500 ⟨[⟨1, some 1000⟩, ⟨2, some 1000⟩], false⟩

/-- Claim C8.  In the drop-to-latest regime (`bufferSize = 0` or
`windowTime = 0`): a value dispatched while no pull is suspended is
dropped silently (state unchanged, nobody woken); a value dispatched
while a pull is suspended replaces the whole queue with just that value
carrying an infinite expiration, and wakes the pending read exactly
once. -/
theorem C8_drop_to_latest (bufferSize windowTime : Option Nat) (now : Nat) (v : V)
    (st : GenState V) (h : bufferSize = some 0 ∨ windowTime = some 0) :
    (st.pendingRead = false → genListener bufferSize windowTime now v st = (st, 0)) ∧
    (st.pendingRead = true → genListener bufferSize windowTime now v st =
      ({ values := [{ value := v, expirationDate := none }], pendingRead := false }, 1)) := by
  have hpos : (isPos bufferSize && isPos windowTime) = false := by
    rcases h with h | h <;> simp [h, isPos]
  constructor
  · intro hp
    rw [genListener]
    simp [hpos, hp]
  · intro hp
    rw [genListener]
    simp only [hpos, Bool.false_eq_true, if_false, hp, if_true]

/-- Witness for C8, at concrete inputs in the `bufferSize = 0` regime:
a value dispatched with no suspended pull is dropped; one dispatched
with a suspended pull replaces the queue and wakes the pull once. -/
theorem C8_witness :
    genListener (some 0) (some 1000) 0 (5 : Nat) ⟨[], false⟩ = (⟨[], false⟩, 0) ∧
    genListener (some 0) (some 1000) 0 (5 : Nat) ⟨[⟨9, some 3⟩], true⟩ =
      ({ values := [{ value := 5, expirationDate := none }], pendingRead := false }, 1) := by
  constructor
  · exact (C8_drop_to_latest (some 0) (some 1000) 0 5 ⟨[], false⟩ (.inl rfl)).1 rfl
  · exact (C8_drop_to_latest (some 0) (some 1000) 0 5 ⟨[⟨9, some 3⟩], true⟩ (.inl rfl)).2 rfl


end EventEmitterSpec
